import Mathlib

/-!
Verification of the nvoc GPU-configuration orchestrator.

The Rust source is shallowly embedded: `u32` becomes `ℕ` (with explicit
`< 2 ^ 32` bounds where relevant), `i32` becomes `ℤ`, `Result<T, NvmlError>`
becomes `Except NvmlError T`, and the NVML capability gateway becomes an
explicit environment record `GpuEnv` supplying the outcome of each gateway
primitive.  Each orchestrator returns, besides its `Result`, the ordered list
of gateway calls it issued, so that "step X was (not) attempted" and
"zero write calls" become statements about that list.

`f32` arithmetic (used by `src/gpu/domain/power.rs`) is modelled exactly:
a finite nonnegative binary32 value is a dyadic number `m * 2 ^ e` with a
24-bit significand, and every operation rounds to nearest, ties to even.
All inputs reachable from `u32` data stay inside the normal range of
binary32 (no overflow, no subnormals), where this model coincides with
IEEE 754 semantics.
-/

namespace Nvoc

/-! ## Round-to-nearest-even integer division

`rneDiv a b` is `a / b` rounded to the nearest integer, ties to even. -/

def rneDiv (a b : ℕ) : ℕ :=
  let q := a / b
  let r := a % b
  if 2 * r < b then q
  else if b < 2 * r then q + 1
  else if q % 2 = 0 then q else q + 1

/-! ## Bit length (fuelled, so that it is structurally recursive) -/

def bitsF : ℕ → ℕ → ℕ
  | 0, _ => 0
  | f + 1, n => if n = 0 then 0 else bitsF f (n / 2) + 1

/-- Number of binary digits of `n`; correct for `n < 2 ^ 256`. -/
def bits (n : ℕ) : ℕ := bitsF 256 n

/-! ## The binary32 model -/

/-- A finite nonnegative binary32 value `m * 2 ^ e`.  Canonical nonzero
values keep `2 ^ 23 ≤ m < 2 ^ 24`; zero is `m = 0`. -/
structure F32 where
  m : ℕ
  e : ℤ
  deriving Repr, DecidableEq

def F32.val (a : F32) : ℚ := (a.m : ℚ) * (2 : ℚ) ^ a.e

def F32.canonical (a : F32) : Prop := a.m = 0 ∨ (2 ^ 23 ≤ a.m ∧ a.m < 2 ^ 24)

/-- `u32 as f32` (also `i32 as f32` for nonnegative values): round the
integer to 24 significant bits, nearest, ties to even. -/
def toF32 (n : ℕ) : F32 :=
  if n = 0 then ⟨0, 0⟩
  else
    let s := bits n
    if s ≤ 24 then ⟨n * 2 ^ (24 - s), (s : ℤ) - 24⟩
    else
      let m0 := rneDiv n (2 ^ (s - 24))
      if m0 = 2 ^ 24 then ⟨2 ^ 23, (s : ℤ) - 23⟩ else ⟨m0, (s : ℤ) - 24⟩

/-- binary32 multiplication of canonical values (round to nearest even). -/
def fmul (a b : F32) : F32 :=
  if a.m = 0 ∨ b.m = 0 then ⟨0, 0⟩
  else
    let p := a.m * b.m
    if p < 2 ^ 47 then
      let m0 := rneDiv p (2 ^ 23)
      if m0 = 2 ^ 24 then ⟨2 ^ 23, a.e + b.e + 24⟩ else ⟨m0, a.e + b.e + 23⟩
    else
      let m0 := rneDiv p (2 ^ 24)
      if m0 = 2 ^ 24 then ⟨2 ^ 23, a.e + b.e + 25⟩ else ⟨m0, a.e + b.e + 24⟩

/-- binary32 division of canonical values, nonzero divisor. -/
def fdiv (a b : F32) : F32 :=
  if a.m = 0 then ⟨0, 0⟩
  else if b.m ≤ a.m then
    let m0 := rneDiv (a.m * 2 ^ 23) b.m
    if m0 = 2 ^ 24 then ⟨2 ^ 23, a.e - b.e - 22⟩ else ⟨m0, a.e - b.e - 23⟩
  else
    let m0 := rneDiv (a.m * 2 ^ 24) b.m
    if m0 = 2 ^ 24 then ⟨2 ^ 23, a.e - b.e - 23⟩ else ⟨m0, a.e - b.e - 24⟩

/-- `f32 as u32` on a nonnegative finite value: truncate toward zero and
saturate at `u32::MAX` (Rust float-to-int cast semantics). -/
def f32ToU32 (a : F32) : ℕ :=
  let v := if 0 ≤ a.e then a.m * 2 ^ a.e.toNat else a.m / 2 ^ (-a.e).toNat
  min v (2 ^ 32 - 1)

/-! Model validation against IEEE binary32 reference computations
(`(l as f32 / d as f32 * 100.0) as u32` and
`(d as f32 * p as f32 / 100.0) as u32` evaluated on hardware). -/

def refPct (l d : ℕ) : ℕ := f32ToU32 (fmul (fdiv (toF32 l) (toF32 d)) (toF32 100))

def refCalc (d p : ℕ) : ℕ := f32ToU32 (fdiv (fmul (toF32 d) (toF32 p)) (toF32 100))

example : refPct 21 5 = 419 := by decide
example : refPct 16777217 3 = 559240576 := by decide
example : refPct 600 600 = 100 := by decide
example : refPct 300 600 = 50 := by decide
example : refPct 1 3 = 33 := by decide
example : refPct 2 3 = 66 := by decide
example : refPct 4294967295 1 = 4294967295 := by decide
example : refPct 0 5 = 0 := by decide
example : refPct 7 10 = 70 := by decide
example : refCalc 600 0 = 0 := by decide
example : refCalc 600 50 = 300 := by decide
example : refCalc 600 100 = 600 := by decide
example : refCalc 600 104 = 624 := by decide
example : refCalc 600 1000000 = 6000000 := by decide
example : refCalc 4294967295 4294967295 = 4294967295 := by decide
example : refCalc 21 5 = 1 := by decide
example : refCalc 5 21 = 1 := by decide
example : refCalc 1 3 = 0 := by decide
example : refCalc 3 1 = 0 := by decide

/-! ## `src/nvml/error.rs`: the domain error taxonomy -/

inductive NvmlError where
  | Uninitialized | InvalidArgument | NotSupported | NoPermission
  | AlreadyInitialized | NotFound | InsufficientSize | InsufficientPower
  | DriverNotLoaded | Timeout | IrqIssue | LibraryNotFound | FunctionNotFound
  | CorruptedInforom | GpuIsLost | ResetRequired | OperatingSystem
  | LibRmVersionMismatch | InUse | Memory | NoData | VgpuEccNotSupported
  | InsufficientResources | FreqNotSupported | ArgumentVersionMismatch
  | Deprecated | NotReady
  | Unknown (code : ℕ)
  deriving Repr, DecidableEq

/-! ## `src/nvml/types.rs`: architecture classification -/

inductive GpuArchitecture where
  | Blackwell
  | Unknown
  deriving Repr, DecidableEq

/-- ASCII uppercase of one character; agrees with Rust `to_uppercase` on
ASCII, which covers every character of the fixed model markers. -/
def asciiUpper (c : Char) : Char := c.toUpper

def upperStr (s : List Char) : List Char := s.map asciiUpper

/-- `sub` occurs at the start of `s`. -/
def leadsWith : List Char → List Char → Bool
  | _, [] => true
  | [], _ :: _ => false
  | c :: s, d :: t => c == d && leadsWith s t

/-- Rust `str::contains`: `sub` occurs contiguously somewhere in `s`. -/
def strContains : List Char → List Char → Bool
  | [], sub => sub.isEmpty
  | c :: s, sub => leadsWith (c :: s) sub || strContains s sub

/-- `GpuArchitecture::from_device_name` (src/nvml/types.rs:120-134):
case-insensitive substring match against the Blackwell model markers. -/
def from_device_name (name : List Char) : GpuArchitecture :=
  let name_upper := upperStr name
  if strContains name_upper "RTX 50".toList
      || strContains name_upper "5090".toList
      || strContains name_upper "5080".toList
      || strContains name_upper "5070".toList
      || strContains name_upper "5060".toList
  then GpuArchitecture.Blackwell
  else GpuArchitecture.Unknown

/-! ## `src/gpu/domain/power.rs`: the power domain model -/

/-- `PowerInfo` — all fields are `u32` watts in the source. -/
structure PowerInfo where
  limit_watts : ℕ
  default_watts : ℕ
  min_watts : ℕ
  max_watts : ℕ
  deriving Repr, DecidableEq

def PowerInfo.u32Bounds (p : PowerInfo) : Prop :=
  p.limit_watts < 2 ^ 32 ∧ p.default_watts < 2 ^ 32 ∧
    p.min_watts < 2 ^ 32 ∧ p.max_watts < 2 ^ 32

/-- `PowerInfo::current_percentage`:
`(limit_watts as f32 / default_watts as f32 * POWER_PRECISION) as u32`.
When `default_watts = 0` the f32 division yields NaN (`0/0`, cast 0) or
`+inf` (cast saturates); otherwise all values stay in the normal binary32
range covered by the dyadic model. -/
def PowerInfo.current_percentage (p : PowerInfo) : ℕ :=
  if p.default_watts = 0 then
    if p.limit_watts = 0 then 0 else 2 ^ 32 - 1
  else
    f32ToU32 (fmul (fdiv (toF32 p.limit_watts) (toF32 p.default_watts)) (toF32 100))

/-- `PowerInfo::calculate_watts_from_percentage`:
`(default_watts as f32 * percentage as f32 / POWER_PRECISION) as u32`. -/
def PowerInfo.calculate_watts_from_percentage (p : PowerInfo) (percentage : ℕ) : ℕ :=
  f32ToU32 (fdiv (fmul (toF32 p.default_watts) (toF32 percentage)) (toF32 100))

/-- `PowerInfo::effective_watts_from_percentage`:
`target_watts.max(self.min_watts).min(self.max_watts)`. -/
def PowerInfo.effective_watts_from_percentage (p : PowerInfo) (percentage : ℕ) : ℕ :=
  let target_watts := p.calculate_watts_from_percentage percentage
  min (max target_watts p.min_watts) p.max_watts

/-- `mw_to_w`: `milliwatts / MILLIWATTS_TO_WATTS` (u32 division). -/
def mw_to_w (milliwatts : ℕ) : ℕ := milliwatts / 1000

/-- `w_to_mw`: `watts * MILLIWATTS_TO_WATTS` (u32 multiplication, wrapping). -/
def w_to_mw (watts : ℕ) : ℕ := watts * 1000 % 2 ^ 32

/-! ## The capability gateway as an environment

One invocation targets one device with a stable hardware state, so each
gateway primitive's outcome is a fixed function of its arguments.
`none` / `Except.ok` is `NVML_SUCCESS`; `some e` / `Except.error e` is a
classified failure. -/

structure GpuEnv where
  initResult : Option NvmlError
  isRoot : Bool
  deviceCount : Except NvmlError ℕ
  getHandle : Option NvmlError
  getName : Except NvmlError (List Char)
  getDriverVersion : Except NvmlError (List Char)
  getNvmlVersion : Except NvmlError (List Char)
  setGpuLockedClocks : ℕ → ℕ → Option NvmlError
  resetGpuLockedClocks : Option NvmlError
  resetMemoryLockedClocks : Option NvmlError
  setClockOffset : ℤ → Option NvmlError
  setMemoryVfOffset : ℤ → Option NvmlError
  getPowerLimit : Except NvmlError ℕ
  getPowerDefaultLimit : Except NvmlError ℕ
  getPowerLimitConstraints : Except NvmlError (ℕ × ℕ)
  setPowerLimit : ℕ → Option NvmlError
  getClockInfoGraphics : Except NvmlError ℕ
  getClockInfoMemory : Except NvmlError ℕ
  getClockOffsets : Except NvmlError ℤ
  getTemperature : Except NvmlError ℕ
  getPowerUsage : Except NvmlError ℕ

/-- One issued gateway call (writes carry the sent arguments). -/
inductive GCall where
  | initCall
  | deviceCountCall
  | getHandleCall
  | getName
  | getDriverVersion
  | getNvmlVersion
  | setGpuLockedClocks (min max : ℕ)
  | resetGpuLockedClocks
  | resetMemoryLockedClocks
  | setClockOffset (offset : ℤ)
  | setMemoryVfOffset (offset : ℤ)
  | setPowerLimit (mw : ℕ)
  | getPowerLimit
  | getPowerDefaultLimit
  | getPowerLimitConstraints
  | getClockInfoGraphics
  | getClockInfoMemory
  | getClockOffsets
  | getTemperature
  | getPowerUsage
  deriving Repr, DecidableEq

/-- A gateway write/mutation call (a `set` or `reset` primitive). -/
def GCall.isWrite : GCall → Bool
  | .setGpuLockedClocks _ _ => true
  | .resetGpuLockedClocks => true
  | .resetMemoryLockedClocks => true
  | .setClockOffset _ => true
  | .setMemoryVfOffset _ => true
  | .setPowerLimit _ => true
  | _ => false

/-! ## `src/gpu/domain/power.rs`: gateway-facing power operations -/

/-- `get_power_info`: three gateway reads, fail-fast, milliwatts → watts. -/
def get_power_info (env : GpuEnv) : Except NvmlError PowerInfo × List GCall :=
  match env.getPowerLimit with
  | .error e => (.error e, [.getPowerLimit])
  | .ok limit_mw =>
    match env.getPowerDefaultLimit with
    | .error e => (.error e, [.getPowerLimit, .getPowerDefaultLimit])
    | .ok default_mw =>
      match env.getPowerLimitConstraints with
      | .error e => (.error e, [.getPowerLimit, .getPowerDefaultLimit, .getPowerLimitConstraints])
      | .ok (min_mw, max_mw) =>
        (.ok { limit_watts := mw_to_w limit_mw, default_watts := mw_to_w default_mw,
               min_watts := mw_to_w min_mw, max_watts := mw_to_w max_mw },
         [.getPowerLimit, .getPowerDefaultLimit, .getPowerLimitConstraints])

/-- `set_power_limit_percentage`: re-read fresh `PowerInfo`, compute the
clamped effective watts, issue one write of the milliwatt value. -/
def set_power_limit_percentage (env : GpuEnv) (percentage : ℕ) :
    Except NvmlError Unit × List GCall :=
  match get_power_info env with
  | (.error e, cs) => (.error e, cs)
  | (.ok power_info, cs) =>
    let target_mw := w_to_mw (power_info.effective_watts_from_percentage percentage)
    match env.setPowerLimit target_mw with
    | none => (.ok (), cs ++ [.setPowerLimit target_mw])
    | some e => (.error e, cs ++ [.setPowerLimit target_mw])

/-- `reset_power_limit`: read the default milliwatt limit, write it back. -/
def reset_power_limit (env : GpuEnv) : Except NvmlError Unit × List GCall :=
  match env.getPowerDefaultLimit with
  | .error e => (.error e, [.getPowerDefaultLimit])
  | .ok default_mw =>
    match env.setPowerLimit default_mw with
    | none => (.ok (), [.getPowerDefaultLimit, .setPowerLimit default_mw])
    | some e => (.error e, [.getPowerDefaultLimit, .setPowerLimit default_mw])

instance {ε α : Type} [DecidableEq ε] [DecidableEq α] : DecidableEq (Except ε α)
  | .error a, .error b => decidable_of_iff (a = b) (by simp)
  | .error _, .ok _ => .isFalse (by simp)
  | .ok _, .error _ => .isFalse (by simp)
  | .ok a, .ok b => decidable_of_iff (a = b) (by simp)

/-! ## `src/gpu/reset.rs`: the reset orchestrator -/

/-- Observable outcome of `reset_gpu_settings`: the returned `Result`, the
ordered gateway calls, and the two incrementally built operation lists
(`reset_operations` backs the `Reset:` line, `failed_operations` the
`Failed:` line). -/
structure ResetOutcome where
  result : Except NvmlError Unit
  calls : List GCall
  resetOps : List (List Char)
  failedOps : List (List Char)
  deriving Repr, DecidableEq

/-- `reset_gpu_settings` (src/gpu/reset.rs:11-120).  After the device-name
read, the idle pre-set's result is discarded (`let _ =`), every step is
attempted unconditionally in order, the graphics-offset step never pushes
to `failed_operations`, and an aggregate `NotSupported` error is returned
only when `reset_operations` is empty and a critical step failed. -/
def reset_gpu_settings (env : GpuEnv) (dry_run : Bool) : ResetOutcome :=
  if dry_run then ⟨.ok (), [], [], []⟩
  else
    match env.getName with
    | .error e => ⟨.error e, [.getName], [], []⟩
    | .ok device_name =>
      let _arch := from_device_name device_name
      -- `let _ = device_set_gpu_locked_clocks(device, 200, 250);`
      let preCalls : List GCall := [.getName, .setGpuLockedClocks 200 250]
      let s2 : Bool := match env.resetGpuLockedClocks with | none => true | some _ => false
      let s3 : Bool := match env.resetMemoryLockedClocks with | none => true | some _ => false
      let s4 : Bool := match env.setClockOffset 0 with | none => true | some _ => false
      let s5 : Bool := match env.setMemoryVfOffset 0 with | none => true | some _ => false
      let powerStep := reset_power_limit env
      let s6 : Bool := match powerStep.1 with | .ok _ => true | .error _ => false
      let resetOps : List (List Char) :=
        (if s2 then ["GPU locked clocks".toList] else []) ++
        (if s3 then ["Memory locked clocks".toList] else []) ++
        (if s4 then ["Graphics offset".toList] else []) ++
        (if s5 then ["Memory VF offset".toList] else []) ++
        (if s6 then ["Power limit".toList] else [])
      let failedOps : List (List Char) :=
        (if s2 then [] else ["GPU locked clocks".toList]) ++
        (if s3 then [] else ["Memory locked clocks".toList]) ++
        (if s5 then [] else ["Memory VF offset".toList]) ++
        (if s6 then [] else ["Power limit".toList])
      -- the graphics-offset failure arm (src/gpu/reset.rs:64-67) prints a
      -- diagnostic whose message performs a driver-version gateway read,
      -- tolerating its failure (`unwrap_or_else`)
      let graphicsDiag : List GCall :=
        match env.setClockOffset 0 with | none => [] | some _ => [.getDriverVersion]
      let calls := preCalls ++
        [.resetGpuLockedClocks, .resetMemoryLockedClocks, .setClockOffset 0] ++
        graphicsDiag ++ [.setMemoryVfOffset 0] ++ powerStep.2
      let critical_failed := failedOps.any fun op =>
        strContains op "GPU locked clocks".toList
          || strContains op "Memory locked clocks".toList
          || strContains op "Memory VF offset".toList
      let result : Except NvmlError Unit :=
        if resetOps.isEmpty ∧ ¬failedOps.isEmpty then
          if critical_failed then .error NvmlError.NotSupported else .ok ()
        else .ok ()
      ⟨result, calls, resetOps, failedOps⟩

/-! ## `src/gpu/overclock.rs` and `src/gpu/power.rs`: the overclock
orchestrator -/

/-- A stdout status line carrying computed target values. -/
inductive Report where
  | dryClocks (min max : ℕ)
  | clocksSet
  | dryGraphics (offset : ℤ)
  | graphicsSet (offset : ℤ)
  | dryMemory (offset : ℤ)
  | memorySet (offset : ℤ)
  | dryPower (percentage watts : ℕ)
  | powerSet (percentage watts : ℕ)
  deriving Repr, DecidableEq

structure OpOutcome where
  result : Except NvmlError Unit
  calls : List GCall
  reports : List Report
  deriving Repr, DecidableEq

/-- `apply_clocks` (src/gpu/overclock.rs:9-27). -/
def apply_clocks (env : GpuEnv) (clocks : ℕ × ℕ) (dry_run : Bool) : OpOutcome :=
  let (min_clock, max_clock) := clocks
  if dry_run then ⟨.ok (), [], [.dryClocks min_clock max_clock]⟩
  else
    match env.setGpuLockedClocks min_clock max_clock with
    | none => ⟨.ok (), [.setGpuLockedClocks min_clock max_clock], [.clocksSet]⟩
    | some e => ⟨.error e, [.setGpuLockedClocks min_clock max_clock], []⟩

/-- `apply_graphics_offset` (src/gpu/overclock.rs:29-45). -/
def apply_graphics_offset (env : GpuEnv) (offset : ℤ) (dry_run : Bool) : OpOutcome :=
  if dry_run then ⟨.ok (), [], [.dryGraphics offset]⟩
  else
    match env.setClockOffset offset with
    | none => ⟨.ok (), [.setClockOffset offset], [.graphicsSet offset]⟩
    | some e => ⟨.error e, [.setClockOffset offset], []⟩

/-- `apply_memory_offset` (src/gpu/overclock.rs:47-63). -/
def apply_memory_offset (env : GpuEnv) (offset : ℤ) (dry_run : Bool) : OpOutcome :=
  if dry_run then ⟨.ok (), [], [.dryMemory offset]⟩
  else
    match env.setMemoryVfOffset offset with
    | none => ⟨.ok (), [.setMemoryVfOffset offset], [.memorySet offset]⟩
    | some e => ⟨.error e, [.setMemoryVfOffset offset], []⟩

/-- `calculate_power_limit` (src/gpu/power.rs:6-9). -/
def calculate_power_limit (env : GpuEnv) (percentage : ℕ) :
    Except NvmlError ℕ × List GCall :=
  match get_power_info env with
  | (.error e, cs) => (.error e, cs)
  | (.ok power_info, cs) => (.ok (power_info.effective_watts_from_percentage percentage), cs)

/-- `apply_power_limit` (src/gpu/power.rs:11-29): compute the would-be
target first; in dry-run mode report it and stop, otherwise issue the
write via `set_power_limit_percentage`. -/
def apply_power_limit (env : GpuEnv) (percentage : ℕ) (dry_run : Bool) : OpOutcome :=
  match calculate_power_limit env percentage with
  | (.error e, cs) => ⟨.error e, cs, []⟩
  | (.ok target_watts, cs) =>
    if dry_run then ⟨.ok (), cs, [.dryPower percentage target_watts]⟩
    else
      match set_power_limit_percentage env percentage with
      | (.ok (), cs') => ⟨.ok (), cs ++ cs', [.powerSet percentage target_watts]⟩
      | (.error e, cs') => ⟨.error e, cs ++ cs', []⟩

/-- `apply` (src/gpu/overclock.rs:65-90): the present sub-operations in
fixed order, fail-fast via `?`. -/
def apply (env : GpuEnv) (clocks : Option (ℕ × ℕ)) (graphics_offset : Option ℤ)
    (memory_offset : Option ℤ) (power_limit : Option ℕ) (dry_run : Bool) : OpOutcome :=
  let step1 : OpOutcome :=
    match clocks with
    | some c => apply_clocks env c dry_run
    | none => ⟨.ok (), [], []⟩
  match step1.result with
  | .error e => ⟨.error e, step1.calls, step1.reports⟩
  | .ok () =>
    let step2 : OpOutcome :=
      match graphics_offset with
      | some o => apply_graphics_offset env o dry_run
      | none => ⟨.ok (), [], []⟩
    match step2.result with
    | .error e => ⟨.error e, step1.calls ++ step2.calls, step1.reports ++ step2.reports⟩
    | .ok () =>
      let step3 : OpOutcome :=
        match memory_offset with
        | some o => apply_memory_offset env o dry_run
        | none => ⟨.ok (), [], []⟩
      match step3.result with
      | .error e =>
        ⟨.error e, step1.calls ++ step2.calls ++ step3.calls,
          step1.reports ++ step2.reports ++ step3.reports⟩
      | .ok () =>
        let step4 : OpOutcome :=
          match power_limit with
          | some p => apply_power_limit env p dry_run
          | none => ⟨.ok (), [], []⟩
        ⟨step4.result, step1.calls ++ step2.calls ++ step3.calls ++ step4.calls,
          step1.reports ++ step2.reports ++ step3.reports ++ step4.reports⟩

/-! ## `src/gpu/validation.rs`: the two gates -/

/-- `validate_blackwell_architecture` (src/gpu/validation.rs:6-15). -/
def validate_blackwell_architecture (env : GpuEnv) :
    Except NvmlError Unit × List GCall :=
  match env.getName with
  | .error e => (.error e, [.getName])
  | .ok device_name =>
    if from_device_name device_name ≠ GpuArchitecture.Blackwell then
      (.error NvmlError.NotSupported, [.getName])
    else (.ok (), [.getName])

/-- `check_system_for_modification` (src/gpu/validation.rs:18-26):
`getuid() == 0` or a `NoPermission` domain error. -/
def check_system_for_modification (env : GpuEnv) : Except NvmlError Unit :=
  if env.isRoot then .ok () else .error NvmlError.NoPermission

/-! ## `src/gpu/mod.rs`: initialization and device lookup -/

/-- Rust `str::parse::<u32>`: optional leading `+`, at least one ASCII
digit, no other characters, value within `u32`. -/
def parse_u32 (s : List Char) : Option ℕ :=
  let t := match s with
    | '+' :: rest => rest
    | _ => s
  if t ≠ [] ∧ t.all Char.isDigit then
    let v := t.foldl (fun acc c => acc * 10 + (c.toNat - '0'.toNat)) 0
    if v < 2 ^ 32 then some v else none
  else none

/-- `driver_version.split('.').next()`: the segment before the first dot
(always present). -/
def firstDotSegment (s : List Char) : List Char := s.takeWhile (· ≠ '.')

/-- `init_nvml` (src/gpu/mod.rs:25-52): after a successful gateway init,
the driver-major check runs only when BOTH version strings were obtained
and the major component parses; only a parsed major `< 550` fails. -/
def init_nvml (env : GpuEnv) : Except NvmlError Unit × List GCall :=
  match env.initResult with
  | some e => (.error e, [.initCall])
  | none =>
    match env.getDriverVersion with
    | .error _ => (.ok (), [.initCall, .getDriverVersion])
    | .ok driver_version =>
      match env.getNvmlVersion with
      | .error _ => (.ok (), [.initCall, .getDriverVersion, .getNvmlVersion])
      | .ok _nvml_version =>
        match parse_u32 (firstDotSegment driver_version) with
        | none => (.ok (), [.initCall, .getDriverVersion, .getNvmlVersion])
        | some major =>
          if major < 550 then
            (.error NvmlError.NotSupported, [.initCall, .getDriverVersion, .getNvmlVersion])
          else (.ok (), [.initCall, .getDriverVersion, .getNvmlVersion])

/-- `get_device` (src/gpu/mod.rs:59-69). -/
def get_device (env : GpuEnv) (device_index : ℕ) : Except NvmlError Unit × List GCall :=
  match env.deviceCount with
  | .error e => (.error e, [.deviceCountCall])
  | .ok device_count =>
    if device_count ≤ device_index then
      (.error NvmlError.InvalidArgument, [.deviceCountCall])
    else
      match env.getHandle with
      | some e => (.error e, [.deviceCountCall, .getHandleCall])
      | none => (.ok (), [.deviceCountCall, .getHandleCall])

/-! ## `src/gpu/info.rs`: the read-only info reporter -/

/-- `show_gpu_info` (src/gpu/info.rs:9-57): the name read propagates its
failure; every other read is tolerated (`N/A`). -/
def show_gpu_info (env : GpuEnv) : Except NvmlError Unit × List GCall :=
  match env.getName with
  | .error e => (.error e, [.getName])
  | .ok _name =>
    (.ok (),
      [.getName, .getClockInfoGraphics, .getClockOffsets, .getClockInfoMemory,
       .getTemperature, .getPowerUsage] ++ (get_power_info env).2)

/-! ## `src/main.rs`: operation dispatch -/

inductive Operation where
  | info
  | reset (dry_run : Bool)
  | overclock (clocks : Option (ℕ × ℕ)) (graphics_offset : Option ℤ)
      (memory_offset : Option ℤ) (power_limit : Option ℕ) (dry_run : Bool)

/-- Modelled from the spec: `Operation::modifies_gpu` is used by
src/main.rs:50 but its definition is not under src/; per the spec, the
privilege gate is "invoked only for mutating operations (reset,
overclock); bypassed for read-only info queries". -/
def Operation.modifies_gpu : Operation → Bool
  | .info => false
  | .reset _ => true
  | .overclock _ _ _ _ _ => true

/-- A top-level error as `run` labels it.  `converted` stands for the
`From<NvmlError>` conversion applied by the bare `?` operators of
src/main.rs (its impl is not under src/); the domain labels are the
string literals of src/main.rs:52-65. -/
inductive RunError where
  | tagged (domain : List Char) (e : NvmlError)
  | converted (e : NvmlError)
  deriving Repr, DecidableEq

/-- `run` (src/main.rs:47-76): privilege gate for mutating operations,
gateway init, device lookup, architecture gate, then dispatch. -/
def run (env : GpuEnv) (device_index : ℕ) (operation : Operation) :
    Except RunError Unit × List GCall :=
  if operation.modifies_gpu ∧ ¬env.isRoot then
    (.error (.tagged "nvoc".toList NvmlError.NoPermission), [])
  else
    match init_nvml env with
    | (.error e, cs) => (.error (.converted e), cs)
    | (.ok (), cs) =>
      match get_device env device_index with
      | (.error e, ds) => (.error (.tagged "device".toList e), cs ++ ds)
      | (.ok (), ds) =>
        match validate_blackwell_architecture env with
        | (.error e, vs) => (.error (.tagged "gpu".toList e), cs ++ ds ++ vs)
        | (.ok (), vs) =>
          match operation with
          | .info =>
            -- Modelled from the spec for `gpu::driver_version` (src/main.rs:62,
            -- not under src/): a pass-through of the gateway driver-version read.
            (match env.getDriverVersion with
             | .error e =>
               (.error (.tagged "driver".toList e), cs ++ ds ++ vs ++ [.getDriverVersion])
             | .ok _ =>
               match show_gpu_info env with
               | (.error e, is) =>
                 (.error (.tagged "info".toList e), cs ++ ds ++ vs ++ [.getDriverVersion] ++ is)
               | (.ok (), is) => (.ok (), cs ++ ds ++ vs ++ [.getDriverVersion] ++ is))
          | .reset dry_run =>
            let r := reset_gpu_settings env dry_run
            (match r.result with
             | .error e => (.error (.converted e), cs ++ ds ++ vs ++ r.calls)
             | .ok () => (.ok (), cs ++ ds ++ vs ++ r.calls))
          | .overclock c g m p dry_run =>
            let r := apply env c g m p dry_run
            (match r.result with
             | .error e => (.error (.converted e), cs ++ ds ++ vs ++ r.calls)
             | .ok () => (.ok (), cs ++ ds ++ vs ++ r.calls))

/-! ## A concrete healthy gateway environment (used by witnesses) -/

def envOk : GpuEnv where
  initResult := none
  isRoot := true
  deviceCount := .ok 1
  getHandle := none
  getName := .ok "NVIDIA GeForce RTX 5090".toList
  getDriverVersion := .ok "580.65.06".toList
  getNvmlVersion := .ok "13.580.65".toList
  setGpuLockedClocks := fun _ _ => none
  resetGpuLockedClocks := none
  resetMemoryLockedClocks := none
  setClockOffset := fun _ => none
  setMemoryVfOffset := fun _ => none
  getPowerLimit := .ok 600000
  getPowerDefaultLimit := .ok 600000
  getPowerLimitConstraints := .ok (400000, 650000)
  setPowerLimit := fun _ => none
  getClockInfoGraphics := .ok 2400
  getClockInfoMemory := .ok 10000
  getClockOffsets := .ok 0
  getTemperature := .ok 45
  getPowerUsage := .ok 350000

/-! ## String helper lemmas -/

theorem leadsWith_nil (s : List Char) : leadsWith s [] = true := by
  cases s <;> rfl

theorem leadsWith_self_append (sub t : List Char) :
    leadsWith (sub ++ t) sub = true := by
  induction sub with
  | nil => simpa using leadsWith_nil t
  | cons c s ih => simp [leadsWith, ih]

theorem strContains_of_leadsWith {s sub : List Char}
    (h : leadsWith s sub = true) : strContains s sub = true := by
  cases s with
  | nil =>
    cases sub with
    | nil => rfl
    | cons d t => simp [leadsWith] at h
  | cons c cs => simp [strContains, h]

theorem strContains_append_left (u s sub : List Char)
    (h : strContains s sub = true) : strContains (u ++ s) sub = true := by
  induction u with
  | nil => simpa using h
  | cons c cs ih => simp [strContains, ih]

/-- C8: `from_device_name` classifies any name containing (in any letter
case) `"RTX 5090"`, `"5080"`, `"5070"`, `"5060"`, or `"RTX 50"` as the
supported (Blackwell) family, classifies `"RTX 4090"` as unsupported, and
is total: every input is classified as one of the two families. -/
theorem from_device_name_markers_total :
    (∀ u w v : List Char,
       (upperStr w = "RTX 5090".toList ∨ upperStr w = "5080".toList ∨
        upperStr w = "5070".toList ∨ upperStr w = "5060".toList ∨
        upperStr w = "RTX 50".toList) →
       from_device_name (u ++ (w ++ v)) = GpuArchitecture.Blackwell) ∧
    from_device_name "RTX 4090".toList = GpuArchitecture.Unknown ∧
    (∀ name : List Char,
       from_device_name name = GpuArchitecture.Blackwell ∨
       from_device_name name = GpuArchitecture.Unknown) := by
  refine ⟨?_, by decide, ?_⟩
  · intro u w v h
    have hsplit : upperStr (u ++ (w ++ v)) = upperStr u ++ (upperStr w ++ upperStr v) := by
      simp [upperStr]
    rcases h with h | h | h | h | h
    · have hc : strContains (upperStr (u ++ (w ++ v))) "RTX 50".toList = true := by
        rw [hsplit, h]
        exact strContains_append_left _ _ _ (strContains_of_leadsWith
          (leadsWith_self_append "RTX 50".toList ('9' :: '0' :: upperStr v)))
      simp only [from_device_name]
      rw [hc]
      simp
    · have hc : strContains (upperStr (u ++ (w ++ v))) "5080".toList = true := by
        rw [hsplit, h]
        exact strContains_append_left _ _ _ (strContains_of_leadsWith
          (leadsWith_self_append "5080".toList (upperStr v)))
      simp only [from_device_name]
      rw [hc]
      simp
    · have hc : strContains (upperStr (u ++ (w ++ v))) "5070".toList = true := by
        rw [hsplit, h]
        exact strContains_append_left _ _ _ (strContains_of_leadsWith
          (leadsWith_self_append "5070".toList (upperStr v)))
      simp only [from_device_name]
      rw [hc]
      simp
    · have hc : strContains (upperStr (u ++ (w ++ v))) "5060".toList = true := by
        rw [hsplit, h]
        exact strContains_append_left _ _ _ (strContains_of_leadsWith
          (leadsWith_self_append "5060".toList (upperStr v)))
      simp only [from_device_name]
      rw [hc]
      simp
    · have hc : strContains (upperStr (u ++ (w ++ v))) "RTX 50".toList = true := by
        rw [hsplit, h]
        exact strContains_append_left _ _ _ (strContains_of_leadsWith
          (leadsWith_self_append "RTX 50".toList (upperStr v)))
      simp only [from_device_name]
      rw [hc]
      simp
  · intro name
    simp only [from_device_name]
    split
    · exact Or.inl rfl
    · exact Or.inr rfl

/-- C8 witness: a mixed-case name containing "rtx 5090" classifies as
Blackwell. -/
theorem from_device_name_markers_total_witness :
    upperStr "rtx 5090".toList = "RTX 5090".toList ∧
    from_device_name
      ("NVIDIA GeForce ".toList ++ ("rtx 5090".toList ++ " Ti".toList)) =
      GpuArchitecture.Blackwell :=
  ⟨by decide,
   from_device_name_markers_total.1 "NVIDIA GeForce ".toList "rtx 5090".toList
     " Ti".toList (Or.inl (by decide))⟩

/-! ## C10: the driver-version gate of `init_nvml` -/

/-- Gateway init succeeds, the driver reports an old major (500), but the
NVML-version read fails. -/
def envOldDriverNoNvmlVersion : GpuEnv :=
  { envOk with
    getDriverVersion := .ok "500.12.03".toList
    getNvmlVersion := .error NvmlError.NotFound }

/-- C10 counterexample: the claim says that whenever the driver version is
obtained and its major parses below 550, `init_nvml` fails — but when the
NVML-version read fails, the code skips the check and returns success. -/
theorem init_nvml_old_driver_counterexample :
    envOldDriverNoNvmlVersion.initResult = none ∧
    envOldDriverNoNvmlVersion.getDriverVersion = .ok "500.12.03".toList ∧
    parse_u32 (firstDotSegment "500.12.03".toList) = some 500 ∧
    500 < 550 ∧
    (init_nvml envOldDriverNoNvmlVersion).1 = .ok () := by
  refine ⟨rfl, rfl, by decide, by decide, rfl⟩

/-- C10 (amended): after a successful gateway init, if the driver version
string is obtained, the NVML version string is also obtained, and the
driver's major component parses to a number strictly below 550, then
`init_nvml` fails with `NotSupported`; if the driver version cannot be
obtained, its major component cannot be parsed, or the NVML version cannot
be obtained, `init_nvml` returns success. -/
theorem init_nvml_driver_gate (env : GpuEnv) (hinit : env.initResult = none) :
    (∀ dv nv major, env.getDriverVersion = .ok dv → env.getNvmlVersion = .ok nv →
       parse_u32 (firstDotSegment dv) = some major → major < 550 →
       (init_nvml env).1 = .error NvmlError.NotSupported) ∧
    (∀ e, env.getDriverVersion = .error e → (init_nvml env).1 = .ok ()) ∧
    (∀ dv, env.getDriverVersion = .ok dv →
       parse_u32 (firstDotSegment dv) = none → (init_nvml env).1 = .ok ()) ∧
    (∀ dv e, env.getDriverVersion = .ok dv → env.getNvmlVersion = .error e →
       (init_nvml env).1 = .ok ()) := by
  refine ⟨?_, ?_, ?_, ?_⟩
  · intro dv nv major hdv hnv hp hlt
    simp [init_nvml, hinit, hdv, hnv, hp, hlt]
  · intro e hdv
    simp [init_nvml, hinit, hdv]
  · intro dv hdv hp
    cases hnv : env.getNvmlVersion with
    | error e => simp [init_nvml, hinit, hdv, hnv]
    | ok nv => simp [init_nvml, hinit, hdv, hnv, hp]
  · intro dv e hdv hnv
    simp [init_nvml, hinit, hdv, hnv]

/-- C10 witness: with init ok, driver "500.12.03" and NVML version both
obtained, `init_nvml` fails with `NotSupported`. -/
theorem init_nvml_driver_gate_witness :
    ({ envOk with getDriverVersion := .ok "500.12.03".toList } : GpuEnv).initResult = none ∧
    (init_nvml { envOk with getDriverVersion := .ok "500.12.03".toList }).1 =
      .error NvmlError.NotSupported :=
  ⟨rfl,
   (init_nvml_driver_gate _ rfl).1 "500.12.03".toList "13.580.65".toList 500
     rfl rfl (by decide) (by decide)⟩

/-! ## The six reset steps as failure predicates -/

/-- Step (1): the idle-range pre-set of the locked clock domain. -/
def resetStep1Fails (env : GpuEnv) : Prop := env.setGpuLockedClocks 200 250 ≠ none

/-- Step (2): reset GPU locked clocks. -/
def resetStep2Fails (env : GpuEnv) : Prop := env.resetGpuLockedClocks ≠ none

/-- Step (3): reset memory locked clocks. -/
def resetStep3Fails (env : GpuEnv) : Prop := env.resetMemoryLockedClocks ≠ none

/-- Step (4): reset the graphics clock offset to 0. -/
def resetStep4Fails (env : GpuEnv) : Prop := env.setClockOffset 0 ≠ none

/-- Step (5): reset the memory VF offset to 0. -/
def resetStep5Fails (env : GpuEnv) : Prop := env.setMemoryVfOffset 0 ≠ none

/-- Step (6): restore the power limit to its default. -/
def resetStep6Fails (env : GpuEnv) : Prop := (reset_power_limit env).1 ≠ .ok ()

/-- Exactly one of the six reset steps fails, the other five succeed. -/
def exactlyOneResetStepFails (env : GpuEnv) : Prop :=
  (resetStep1Fails env ∧ ¬resetStep2Fails env ∧ ¬resetStep3Fails env ∧
    ¬resetStep4Fails env ∧ ¬resetStep5Fails env ∧ ¬resetStep6Fails env) ∨
  (¬resetStep1Fails env ∧ resetStep2Fails env ∧ ¬resetStep3Fails env ∧
    ¬resetStep4Fails env ∧ ¬resetStep5Fails env ∧ ¬resetStep6Fails env) ∨
  (¬resetStep1Fails env ∧ ¬resetStep2Fails env ∧ resetStep3Fails env ∧
    ¬resetStep4Fails env ∧ ¬resetStep5Fails env ∧ ¬resetStep6Fails env) ∨
  (¬resetStep1Fails env ∧ ¬resetStep2Fails env ∧ ¬resetStep3Fails env ∧
    resetStep4Fails env ∧ ¬resetStep5Fails env ∧ ¬resetStep6Fails env) ∨
  (¬resetStep1Fails env ∧ ¬resetStep2Fails env ∧ ¬resetStep3Fails env ∧
    ¬resetStep4Fails env ∧ resetStep5Fails env ∧ ¬resetStep6Fails env) ∨
  (¬resetStep1Fails env ∧ ¬resetStep2Fails env ∧ ¬resetStep3Fails env ∧
    ¬resetStep4Fails env ∧ ¬resetStep5Fails env ∧ resetStep6Fails env)

/-- The full gateway trace of a non-dry reset that got past the name read:
every step is attempted exactly once, in order — together with the
driver-version read that the graphics-offset failure diagnostic performs
(src/gpu/reset.rs:66) — and no further (rollback) mutations. -/
def resetExpectedCalls (env : GpuEnv) : List GCall :=
  [.getName, .setGpuLockedClocks 200 250, .resetGpuLockedClocks,
   .resetMemoryLockedClocks, .setClockOffset 0] ++
    (match env.setClockOffset 0 with | none => [] | some _ => [.getDriverVersion]) ++
    [.setMemoryVfOffset 0] ++ (reset_power_limit env).2

theorem exceptUnit_ne_ok {ε : Type} {x : Except ε Unit} (h : x ≠ .ok ()) :
    ∃ e, x = .error e := by
  cases x with
  | error e => exact ⟨e, rfl⟩
  | ok u => cases u; exact absurd rfl h

/-! ## C1: reset with exactly one failing step -/

/-- Healthy gateway except that the locked-clock reset call fails. -/
def envStep2Fails : GpuEnv :=
  { envOk with resetGpuLockedClocks := some NvmlError.NotSupported }

/-- C1 counterexample: with exactly one of the six reset steps failing
(step 2) and the rest succeeding, `reset_gpu_settings` returns success,
not an aggregate failure. -/
theorem reset_single_failure_counterexample :
    exactlyOneResetStepFails envStep2Fails ∧
    (reset_gpu_settings envStep2Fails false).result = .ok () ∧
    (reset_gpu_settings envStep2Fails false).failedOps =
      ["GPU locked clocks".toList] := by
  refine ⟨?_, by decide, by decide⟩
  right; left
  simp [resetStep1Fails, resetStep2Fails, resetStep3Fails, resetStep4Fails,
    resetStep5Fails, resetStep6Fails, envStep2Fails, envOk, reset_power_limit]

/-- C1 (amended): if during `reset_gpu_settings` (dry_run = false, name
read succeeding) exactly one of the six reset steps fails and the rest
succeed, the function returns success — the aggregate `NotSupported`
failure is reserved for the case where no step was recorded successful —
and the successful steps remain applied: no rollback is attempted, the
gateway trace being exactly the six step attempts in order (plus, when the
failing step is the graphics offset, the driver-version read its failure
diagnostic performs). -/
theorem reset_single_failure_returns_success (env : GpuEnv) (nm : List Char)
    (hname : env.getName = .ok nm) (h : exactlyOneResetStepFails env) :
    (reset_gpu_settings env false).result = .ok () ∧
    (reset_gpu_settings env false).calls = resetExpectedCalls env := by
  refine ⟨?_, by simp [reset_gpu_settings, hname, resetExpectedCalls]⟩
  simp only [exactlyOneResetStepFails, resetStep1Fails, resetStep2Fails,
    resetStep3Fails, resetStep4Fails, resetStep5Fails, resetStep6Fails,
    not_not] at h
  rcases h with ⟨h1, h2, h3, h4, h5, h6⟩ | ⟨h1, h2, h3, h4, h5, h6⟩ |
    ⟨h1, h2, h3, h4, h5, h6⟩ | ⟨h1, h2, h3, h4, h5, h6⟩ |
    ⟨h1, h2, h3, h4, h5, h6⟩ | ⟨h1, h2, h3, h4, h5, h6⟩
  · simp [reset_gpu_settings, hname, h2, h3, h4, h5, h6]
  · obtain ⟨e, he⟩ := Option.ne_none_iff_exists'.mp h2
    simp [reset_gpu_settings, hname, he, h3, h4, h5, h6]
  · obtain ⟨e, he⟩ := Option.ne_none_iff_exists'.mp h3
    simp [reset_gpu_settings, hname, h2, he, h4, h5, h6]
  · obtain ⟨e, he⟩ := Option.ne_none_iff_exists'.mp h4
    simp [reset_gpu_settings, hname, h2, h3, he, h5, h6]
  · obtain ⟨e, he⟩ := Option.ne_none_iff_exists'.mp h5
    simp [reset_gpu_settings, hname, h2, h3, h4, he, h6]
  · obtain ⟨e, he⟩ := exceptUnit_ne_ok h6
    simp [reset_gpu_settings, hname, h2, h3, h4, h5, he]

/-- C1 witness: the amended theorem applied to the concrete single-failure
environment. -/
theorem reset_single_failure_returns_success_witness :
    envStep2Fails.getName = .ok "NVIDIA GeForce RTX 5090".toList ∧
    (reset_gpu_settings envStep2Fails false).result = .ok () ∧
    (reset_gpu_settings envStep2Fails false).calls = resetExpectedCalls envStep2Fails :=
  ⟨rfl,
   reset_single_failure_returns_success envStep2Fails _ rfl
     (Or.inr (Or.inl (by
       simp [resetStep1Fails, resetStep2Fails, resetStep3Fails, resetStep4Fails,
         resetStep5Fails, resetStep6Fails, envStep2Fails, envOk, reset_power_limit])))⟩

/-! ## C2: the idle pre-set / locked-clock reset dependency -/

theorem getPowerDefaultLimit_mem_reset_power_limit (env : GpuEnv) :
    GCall.getPowerDefaultLimit ∈ (reset_power_limit env).2 := by
  cases hd : env.getPowerDefaultLimit with
  | error e => simp [reset_power_limit, hd]
  | ok mw =>
    cases hs : env.setPowerLimit mw with
    | none => simp [reset_power_limit, hd, hs]
    | some e => simp [reset_power_limit, hd, hs]

/-- Healthy gateway except that the idle-range pre-set call fails. -/
def envPresetFails : GpuEnv :=
  { envOk with setGpuLockedClocks := fun _ _ => some NvmlError.InvalidArgument }

/-- C2 counterexample: the idle pre-set fails, yet the locked-clock reset
IS attempted and is recorded as a success, not as a failure. -/
theorem reset_preset_dependency_counterexample :
    resetStep1Fails envPresetFails ∧
    GCall.resetGpuLockedClocks ∈ (reset_gpu_settings envPresetFails false).calls ∧
    "GPU locked clocks".toList ∈ (reset_gpu_settings envPresetFails false).resetOps ∧
    (reset_gpu_settings envPresetFails false).failedOps = [] := by
  refine ⟨?_, by decide, by decide, by decide⟩
  simp [resetStep1Fails, envPresetFails, envOk]

/-- C2 (amended): the result of the idle-range pre-set is discarded: even
when it fails, the locked-clock reset is still attempted (and recorded
failed exactly when that reset call itself fails), and the remaining four
steps are each still attempted. -/
theorem reset_preset_failure_ignored (env : GpuEnv) (nm : List Char)
    (hname : env.getName = .ok nm) (h1 : resetStep1Fails env) :
    GCall.resetGpuLockedClocks ∈ (reset_gpu_settings env false).calls ∧
    ("GPU locked clocks".toList ∈ (reset_gpu_settings env false).resetOps ↔
      ¬resetStep2Fails env) ∧
    ("GPU locked clocks".toList ∈ (reset_gpu_settings env false).failedOps ↔
      resetStep2Fails env) ∧
    GCall.resetMemoryLockedClocks ∈ (reset_gpu_settings env false).calls ∧
    GCall.setClockOffset 0 ∈ (reset_gpu_settings env false).calls ∧
    GCall.setMemoryVfOffset 0 ∈ (reset_gpu_settings env false).calls ∧
    GCall.getPowerDefaultLimit ∈ (reset_gpu_settings env false).calls := by
  have hmem := getPowerDefaultLimit_mem_reset_power_limit env
  refine ⟨by simp [reset_gpu_settings, hname], ?_, ?_,
    by simp [reset_gpu_settings, hname], by simp [reset_gpu_settings, hname],
    by simp [reset_gpu_settings, hname], by simp [reset_gpu_settings, hname, hmem]⟩ <;>
  · cases h2 : env.resetGpuLockedClocks with
    | none => simp [reset_gpu_settings, hname, h2, resetStep2Fails]
    | some e => simp [reset_gpu_settings, hname, h2, resetStep2Fails]

/-- C2 witness: the amended theorem at the concrete pre-set-failure
environment. -/
theorem reset_preset_failure_ignored_witness :
    envPresetFails.getName = .ok "NVIDIA GeForce RTX 5090".toList ∧
    resetStep1Fails envPresetFails ∧
    GCall.resetGpuLockedClocks ∈ (reset_gpu_settings envPresetFails false).calls :=
  ⟨rfl, by simp [resetStep1Fails, envPresetFails, envOk],
   (reset_preset_failure_ignored envPresetFails _ rfl
     (by simp [resetStep1Fails, envPresetFails, envOk])).1⟩

/-! ## C9: the graphics-offset step and the failure summary -/

/-- All recorded reset steps except the graphics offset fail. -/
def envOnlyGraphicsOk : GpuEnv :=
  { envOk with
    resetGpuLockedClocks := some NvmlError.NotSupported
    resetMemoryLockedClocks := some NvmlError.NotSupported
    setMemoryVfOffset := fun _ => some NvmlError.NotSupported
    setPowerLimit := fun _ => some NvmlError.NotSupported }

/-- As `envOnlyGraphicsOk`, but the graphics-offset reset fails too. -/
def envAllStepsFail : GpuEnv :=
  { envOnlyGraphicsOk with setClockOffset := fun _ => some NvmlError.NotSupported }

/-- C9 counterexample: the two environments differ only in the
graphics-offset outcome and produce the same `Failed:` summary, yet the
returned result differs (`Ok` vs the aggregate `NotSupported` error), so
the returned result is NOT independent of the graphics-offset step. -/
theorem reset_graphics_offset_result_counterexample :
    envAllStepsFail = { envOnlyGraphicsOk with setClockOffset := fun _ => some NvmlError.NotSupported } ∧
    (reset_gpu_settings envOnlyGraphicsOk false).failedOps =
      (reset_gpu_settings envAllStepsFail false).failedOps ∧
    (reset_gpu_settings envOnlyGraphicsOk false).result = .ok () ∧
    (reset_gpu_settings envAllStepsFail false).result = .error NvmlError.NotSupported := by
  refine ⟨rfl, by decide, by decide, by decide⟩

/-- Recorded success of reset step (2). -/
def resetS2 (env : GpuEnv) : Bool :=
  match env.resetGpuLockedClocks with | none => true | some _ => false

/-- Recorded success of reset step (3). -/
def resetS3 (env : GpuEnv) : Bool :=
  match env.resetMemoryLockedClocks with | none => true | some _ => false

/-- Recorded success of reset step (4). -/
def resetS4 (env : GpuEnv) : Bool :=
  match env.setClockOffset 0 with | none => true | some _ => false

/-- Recorded success of reset step (5). -/
def resetS5 (env : GpuEnv) : Bool :=
  match env.setMemoryVfOffset 0 with | none => true | some _ => false

/-- Recorded success of reset step (6). -/
def resetS6 (env : GpuEnv) : Bool :=
  match (reset_power_limit env).1 with | .ok _ => true | .error _ => false

/-- The `reset_operations` list of a non-dry reset. -/
def resetOpsList (env : GpuEnv) : List (List Char) :=
  (if resetS2 env then ["GPU locked clocks".toList] else []) ++
  (if resetS3 env then ["Memory locked clocks".toList] else []) ++
  (if resetS4 env then ["Graphics offset".toList] else []) ++
  (if resetS5 env then ["Memory VF offset".toList] else []) ++
  (if resetS6 env then ["Power limit".toList] else [])

/-- The `failed_operations` list of a non-dry reset. -/
def resetFailedList (env : GpuEnv) : List (List Char) :=
  (if resetS2 env then [] else ["GPU locked clocks".toList]) ++
  (if resetS3 env then [] else ["Memory locked clocks".toList]) ++
  (if resetS5 env then [] else ["Memory VF offset".toList]) ++
  (if resetS6 env then [] else ["Power limit".toList])

/-- The `Result` of a non-dry reset that got past the name read. -/
def resetResultOf (env : GpuEnv) : Except NvmlError Unit :=
  if (resetOpsList env).isEmpty ∧ ¬(resetFailedList env).isEmpty then
    if (resetFailedList env).any (fun op =>
        strContains op "GPU locked clocks".toList
          || strContains op "Memory locked clocks".toList
          || strContains op "Memory VF offset".toList) then
      .error NvmlError.NotSupported
    else .ok ()
  else .ok ()

/-- Unfolding lemma: a non-dry reset past the name read is exactly the
component functions above. -/
theorem reset_gpu_settings_eq (env : GpuEnv) (nm : List Char)
    (hname : env.getName = .ok nm) :
    reset_gpu_settings env false =
      ⟨resetResultOf env, resetExpectedCalls env, resetOpsList env,
        resetFailedList env⟩ := by
  simp only [reset_gpu_settings, hname, resetResultOf, resetOpsList,
    resetFailedList, resetS2, resetS3, resetS4, resetS5, resetS6,
    resetExpectedCalls]
  rfl

theorem resetS2_setClockOffset (env : GpuEnv) (f : ℤ → Option NvmlError) :
    resetS2 { env with setClockOffset := f } = resetS2 env := rfl

theorem resetS3_setClockOffset (env : GpuEnv) (f : ℤ → Option NvmlError) :
    resetS3 { env with setClockOffset := f } = resetS3 env := rfl

theorem resetS5_setClockOffset (env : GpuEnv) (f : ℤ → Option NvmlError) :
    resetS5 { env with setClockOffset := f } = resetS5 env := rfl

theorem resetS6_setClockOffset (env : GpuEnv) (f : ℤ → Option NvmlError) :
    resetS6 { env with setClockOffset := f } = resetS6 env := rfl

theorem resetFailedList_setClockOffset (env : GpuEnv) (f : ℤ → Option NvmlError) :
    resetFailedList { env with setClockOffset := f } = resetFailedList env := rfl

theorem graphics_not_in_resetFailedList (env : GpuEnv) :
    "Graphics offset".toList ∉ resetFailedList env := by
  unfold resetFailedList
  cases resetS2 env <;> cases resetS3 env <;> cases resetS5 env <;>
    cases resetS6 env <;> decide

/-- C9 (amended): a failure of the graphics-offset reset step is never
added to the failed-operations list, and the `Failed:` summary is the same
whatever the graphics-offset outcome; the returned result is also
unchanged provided at least one other recorded step succeeds (only when
every other recorded step fails can the graphics-offset outcome flip the
aggregate result). -/
theorem reset_graphics_offset_not_in_failed (env : GpuEnv) (nm : List Char)
    (hname : env.getName = .ok nm) (o o' : Option NvmlError) :
    "Graphics offset".toList ∉
      (reset_gpu_settings { env with setClockOffset := fun _ => o } false).failedOps ∧
    (reset_gpu_settings { env with setClockOffset := fun _ => o } false).failedOps =
      (reset_gpu_settings { env with setClockOffset := fun _ => o' } false).failedOps ∧
    ((¬resetStep2Fails env ∨ ¬resetStep3Fails env ∨ ¬resetStep5Fails env ∨
        ¬resetStep6Fails env) →
      (reset_gpu_settings { env with setClockOffset := fun _ => o } false).result =
        (reset_gpu_settings { env with setClockOffset := fun _ => o' } false).result) := by
  have hn : ∀ oo : Option NvmlError,
      ({ env with setClockOffset := fun _ => oo } : GpuEnv).getName = .ok nm := fun _ => hname
  rw [reset_gpu_settings_eq _ nm (hn o), reset_gpu_settings_eq _ nm (hn o')]
  dsimp only
  refine ⟨?_, ?_, ?_⟩
  · exact graphics_not_in_resetFailedList _
  · rw [resetFailedList_setClockOffset]
    exact (resetFailedList_setClockOffset env fun _ => o').symm
  · intro hsome
    have hsucc : resetS2 env = true ∨ resetS3 env = true ∨ resetS5 env = true ∨
        resetS6 env = true := by
      rcases hsome with h | h | h | h
      · left
        have := not_not.mp h
        simp [resetS2, this]
      · right; left
        have := not_not.mp h
        simp [resetS3, this]
      · right; right; left
        have := not_not.mp h
        simp [resetS5, this]
      · right; right; right
        have hp : (reset_power_limit env).1 = .ok () := not_not.mp h
        simp [resetS6, hp]
    have key : ∀ e' : GpuEnv, resetS2 e' = true ∨ resetS3 e' = true ∨
        resetS5 e' = true ∨ resetS6 e' = true → resetResultOf e' = .ok () := by
      intro e' he
      have hne : (resetOpsList e').isEmpty = false := by
        unfold resetOpsList
        rcases he with h | h | h | h <;> rw [h] <;>
          cases resetS2 e' <;> cases resetS3 e' <;> cases resetS4 e' <;>
          cases resetS5 e' <;> cases resetS6 e' <;> simp_all
      unfold resetResultOf
      rw [hne]
      simp
    rw [key _ (by
        rw [resetS2_setClockOffset, resetS3_setClockOffset,
          resetS5_setClockOffset, resetS6_setClockOffset]
        exact hsucc),
      key _ (by
        rw [resetS2_setClockOffset, resetS3_setClockOffset,
          resetS5_setClockOffset, resetS6_setClockOffset]
        exact hsucc)]

/-- C9 witness: the amended theorem at the concrete environment where all
other recorded steps fail. -/
theorem reset_graphics_offset_not_in_failed_witness :
    envOnlyGraphicsOk.getName = .ok "NVIDIA GeForce RTX 5090".toList ∧
    "Graphics offset".toList ∉
      (reset_gpu_settings { envOnlyGraphicsOk with setClockOffset := fun _ => none } false).failedOps :=
  ⟨rfl,
   (reset_graphics_offset_not_in_failed envOnlyGraphicsOk _ rfl none
     (some NvmlError.NotSupported)).1⟩

/-! ## C4: the overclock orchestrator is fail-fast and ordered -/

theorem get_power_info_calls_readonly (env : GpuEnv) :
    ((get_power_info env).2).filter GCall.isWrite = [] := by
  unfold get_power_info
  cases env.getPowerLimit with
  | error e => simp [GCall.isWrite]
  | ok limit =>
    cases env.getPowerDefaultLimit with
    | error e => simp [GCall.isWrite]
    | ok dflt =>
      cases hc : env.getPowerLimitConstraints with
      | error e => simp [GCall.isWrite]
      | ok mm => cases mm with
        | mk mn mx => simp [GCall.isWrite]

/-- C4: `apply` (dry_run = false) executes only the present sub-operations
in the fixed order clock-range → graphics offset → memory offset → power;
the first sub-operation failure is returned immediately and every
remaining sub-operation is never attempted.  In particular a clock-range
gateway failure aborts before the graphics, memory and power steps. -/
theorem overclock_apply_fail_fast (env : GpuEnv) (a b : ℕ) (go mo : ℤ)
    (g m : Option ℤ) (pw : Option ℕ) :
    (∀ e, env.setGpuLockedClocks a b = some e →
       apply env (some (a, b)) g m pw false =
         ⟨.error e, [.setGpuLockedClocks a b], []⟩) ∧
    (∀ e, env.setGpuLockedClocks a b = none → env.setClockOffset go = some e →
       apply env (some (a, b)) (some go) m pw false =
         ⟨.error e, [.setGpuLockedClocks a b, .setClockOffset go], [.clocksSet]⟩) ∧
    (∀ e, env.setGpuLockedClocks a b = none → env.setClockOffset go = none →
       env.setMemoryVfOffset mo = some e →
       apply env (some (a, b)) (some go) (some mo) pw false =
         ⟨.error e, [.setGpuLockedClocks a b, .setClockOffset go, .setMemoryVfOffset mo],
           [.clocksSet, .graphicsSet go]⟩) ∧
    (∀ p, env.setGpuLockedClocks a b = none → env.setClockOffset go = none →
       env.setMemoryVfOffset mo = none →
       apply env (some (a, b)) (some go) (some mo) (some p) false =
         ⟨(apply_power_limit env p false).result,
           [.setGpuLockedClocks a b, .setClockOffset go, .setMemoryVfOffset mo] ++
             (apply_power_limit env p false).calls,
           [.clocksSet, .graphicsSet go, .memorySet mo] ++
             (apply_power_limit env p false).reports⟩) ∧
    apply env none none none none false = ⟨.ok (), [], []⟩ := by
  refine ⟨?_, ?_, ?_, ?_, by simp [apply]⟩
  · intro e he
    simp [apply, apply_clocks, he]
  · intro e hc he
    simp [apply, apply_clocks, apply_graphics_offset, hc, he]
  · intro e hc hg he
    simp [apply, apply_clocks, apply_graphics_offset, apply_memory_offset, hc, hg, he]
  · intro p hc hg hm
    cases happ : apply_power_limit env p false with
    | mk r cs rp =>
      cases r with
      | error e =>
        simp [apply, apply_clocks, apply_graphics_offset, apply_memory_offset,
          hc, hg, hm, happ]
      | ok u =>
        cases u
        simp [apply, apply_clocks, apply_graphics_offset, apply_memory_offset,
          hc, hg, hm, happ]

/-- C4 witness: the spec's scenario — clock range fails at the gateway
while graphics offset 50 and power 80 are requested — aborts immediately
with only the single clock call issued. -/
theorem overclock_apply_fail_fast_witness :
    envPresetFails.setGpuLockedClocks 100 300 = some NvmlError.InvalidArgument ∧
    apply envPresetFails (some (100, 300)) (some 50) none (some 80) false =
      ⟨.error NvmlError.InvalidArgument, [.setGpuLockedClocks 100 300], []⟩ :=
  ⟨rfl,
   (overclock_apply_fail_fast envPresetFails 100 300 50 0 (some 50) none
     (some 80)).1 NvmlError.InvalidArgument rfl⟩

/-! ## C5: dry-run issues no gateway writes -/

theorem apply_power_limit_dry_calls (env : GpuEnv) (p : ℕ) :
    (apply_power_limit env p true).calls = (get_power_info env).2 := by
  unfold apply_power_limit calculate_power_limit
  cases hg : get_power_info env with
  | mk r cs => cases r <;> simp

/-- C5: with `dry_run = true`, a reset issues no gateway calls at all, the
overclock orchestrator issues zero write calls (only the power-info
reads), each sub-operation reports its would-be target, and the power
value reported dry is computed by the same conversion
(`effective_watts_from_percentage`) whose milliwatt image is the unique
write of the real path. -/
theorem dry_run_zero_writes (env : GpuEnv) (c : Option (ℕ × ℕ)) (g m : Option ℤ)
    (pw : Option ℕ) :
    reset_gpu_settings env true = ⟨.ok (), [], [], []⟩ ∧
    (apply env c g m pw true).calls.filter GCall.isWrite = [] ∧
    (∀ a b, apply_clocks env (a, b) true = ⟨.ok (), [], [.dryClocks a b]⟩) ∧
    (∀ o, apply_graphics_offset env o true = ⟨.ok (), [], [.dryGraphics o]⟩) ∧
    (∀ o, apply_memory_offset env o true = ⟨.ok (), [], [.dryMemory o]⟩) ∧
    (∀ p pi cs, get_power_info env = (.ok pi, cs) →
       apply_power_limit env p true =
         ⟨.ok (), cs, [.dryPower p (pi.effective_watts_from_percentage p)]⟩ ∧
       (apply_power_limit env p false).calls.filter GCall.isWrite =
         [.setPowerLimit (w_to_mw (pi.effective_watts_from_percentage p))]) := by
  have hro := get_power_info_calls_readonly env
  refine ⟨rfl, ?_, fun a b => rfl, fun o => rfl, fun o => rfl, ?_⟩
  · have hpl := apply_power_limit_dry_calls env
    cases c <;> cases g <;> cases m <;> cases pw <;>
      simp [apply, apply_clocks, apply_graphics_offset, apply_memory_offset,
        hpl, hro, List.filter_append]
  · intro p pi cs hg
    have hcs : cs.filter GCall.isWrite = [] := by
      have : (get_power_info env).2 = cs := by rw [hg]
      rw [← this]; exact hro
    refine ⟨by simp [apply_power_limit, calculate_power_limit, hg], ?_⟩
    unfold apply_power_limit calculate_power_limit set_power_limit_percentage
    rw [hg]
    cases hsp : env.setPowerLimit (w_to_mw (pi.effective_watts_from_percentage p)) <;>
      simp [hsp, List.filter_append, hcs, GCall.isWrite]

/-- C5 witness: a full dry-run overclock request against the healthy
environment issues zero write calls, and the dry power report carries the
same watts whose milliwatt image the real path writes. -/
theorem dry_run_zero_writes_witness :
    (apply envOk (some (100, 300)) (some 50) (some 30) (some 80) true).calls.filter
        GCall.isWrite = [] ∧
    get_power_info envOk =
      (.ok ⟨600, 600, 400, 650⟩,
        [.getPowerLimit, .getPowerDefaultLimit, .getPowerLimitConstraints]) ∧
    apply_power_limit envOk 80 true =
      ⟨.ok (), [.getPowerLimit, .getPowerDefaultLimit, .getPowerLimitConstraints],
        [.dryPower 80 480]⟩ ∧
    (apply_power_limit envOk 80 false).calls.filter GCall.isWrite =
      [.setPowerLimit 480000] := by
  have h := dry_run_zero_writes envOk (some (100, 300)) (some 50) (some 30) (some 80)
  have hp := h.2.2.2.2.2 80 ⟨600, 600, 400, 650⟩
    [.getPowerLimit, .getPowerDefaultLimit, .getPowerLimitConstraints] (by decide)
  have heff : (⟨600, 600, 400, 650⟩ : PowerInfo).effective_watts_from_percentage 80 = 480 := by
    decide
  refine ⟨h.2.1, by decide, ?_, ?_⟩
  · rw [hp.1, heff]
  · have := hp.2
    rw [heff] at this
    simpa using this

/-! ## C7: gate ordering in `run` -/

/-- C7: a mutating operation is rejected by the privilege gate before any
gateway call; with privilege present, a failing architecture gate stops
every operation right after the name read (no orchestrator call); the
read-only info operation never consults the privilege gate — it runs for
any `isRoot` — but still only after the architecture gate has passed, and
a mutating orchestrator's calls appear only after both gates' calls. -/
theorem run_gate_ordering (env : GpuEnv) (idx : ℕ) (ics dcs : List GCall)
    (nm : List Char) (dry : Bool) (c : Option (ℕ × ℕ)) (g m : Option ℤ)
    (pw : Option ℕ) :
    (env.isRoot = false →
      run env idx (.reset dry) =
        (.error (.tagged "nvoc".toList NvmlError.NoPermission), []) ∧
      run env idx (.overclock c g m pw dry) =
        (.error (.tagged "nvoc".toList NvmlError.NoPermission), [])) ∧
    (init_nvml env = (.ok (), ics) → get_device env idx = (.ok (), dcs) →
      env.getName = .ok nm →
      (from_device_name nm ≠ GpuArchitecture.Blackwell →
        (env.isRoot = true → ∀ op : Operation,
          run env idx op =
            (.error (.tagged "gpu".toList NvmlError.NotSupported),
              ics ++ dcs ++ [.getName])) ∧
        run env idx .info =
          (.error (.tagged "gpu".toList NvmlError.NotSupported),
            ics ++ dcs ++ [.getName])) ∧
      (from_device_name nm = GpuArchitecture.Blackwell →
        (∀ dv, env.getDriverVersion = .ok dv →
          run env idx .info =
            (.ok (), ics ++ dcs ++ [.getName] ++ [.getDriverVersion] ++
              (show_gpu_info env).2)) ∧
        (env.isRoot = true →
          (run env idx (.reset dry)).2 =
            ics ++ dcs ++ [.getName] ++ (reset_gpu_settings env dry).calls))) := by
  refine ⟨?_, ?_⟩
  · intro hroot
    constructor <;> simp [run, Operation.modifies_gpu, hroot]
  · intro hinit hdev hname
    refine ⟨fun harch => ⟨?_, ?_⟩, fun harch => ⟨?_, ?_⟩⟩
    · intro hroot op
      have hval : validate_blackwell_architecture env =
          (.error NvmlError.NotSupported, [.getName]) := by
        simp [validate_blackwell_architecture, hname, harch]
      cases op <;> simp [run, Operation.modifies_gpu, hroot, hinit, hdev, hval]
    · have hval : validate_blackwell_architecture env =
          (.error NvmlError.NotSupported, [.getName]) := by
        simp [validate_blackwell_architecture, hname, harch]
      simp [run, Operation.modifies_gpu, hinit, hdev, hval]
    · intro dv hdv
      have hval : validate_blackwell_architecture env = (.ok (), [.getName]) := by
        simp [validate_blackwell_architecture, hname, harch]
      have hshow : show_gpu_info env =
          (.ok (), [.getName, .getClockInfoGraphics, .getClockOffsets,
            .getClockInfoMemory, .getTemperature, .getPowerUsage] ++
              (get_power_info env).2) := by
        simp [show_gpu_info, hname]
      simp [run, Operation.modifies_gpu, hinit, hdev, hval, hdv, hshow]
    · intro hroot
      have hval : validate_blackwell_architecture env = (.ok (), [.getName]) := by
        simp [validate_blackwell_architecture, hname, harch]
      cases hres : (reset_gpu_settings env dry).result <;>
        simp [run, Operation.modifies_gpu, hroot, hinit, hdev, hval, hres]

/-- Gateway environment of an unprivileged invocation. -/
def envNonRoot : GpuEnv := { envOk with isRoot := false }

/-- C7 witness: without root, reset is rejected with an empty trace while
info still runs to completion after the architecture gate. -/
theorem run_gate_ordering_witness :
    run envNonRoot 0 (.reset false) =
      (.error (.tagged "nvoc".toList NvmlError.NoPermission), []) ∧
    run envNonRoot 0 .info =
      (.ok (), [.initCall, .getDriverVersion, .getNvmlVersion] ++
        [.deviceCountCall, .getHandleCall] ++ [.getName] ++ [.getDriverVersion] ++
        (show_gpu_info envNonRoot).2) := by
  have h := run_gate_ordering envNonRoot 0
    [.initCall, .getDriverVersion, .getNvmlVersion] [.deviceCountCall, .getHandleCall]
    "NVIDIA GeForce RTX 5090".toList false none none none none
  refine ⟨(h.1 rfl).1, ?_⟩
  exact ((h.2 (by decide) (by decide) rfl).2 (by decide)).1 "580.65.06".toList rfl

/-! ## Specification-level rounding

`rne x` rounds a rational to the nearest integer, ties to even; `rnd q`
rounds a positive rational to 24 significant bits (the binary32
significand), nearest, ties to even.  These are the mathematical
specifications against which the computable dyadic operations `toF32`,
`fmul`, `fdiv` are proved correct. -/

def rne (x : ℚ) : ℤ :=
  if x - ⌊x⌋ < 1 / 2 then ⌊x⌋
  else if 1 / 2 < x - ⌊x⌋ then ⌊x⌋ + 1
  else if ⌊x⌋ % 2 = 0 then ⌊x⌋ else ⌊x⌋ + 1

def rnd (q : ℚ) : ℚ :=
  if q ≤ 0 then 0
  else (rne (q / 2 ^ (Int.log 2 q - 23)) : ℚ) * 2 ^ (Int.log 2 q - 23)

theorem rne_intCast (n : ℤ) : rne (n : ℚ) = n := by
  simp [rne]

theorem floor_le_rne (x : ℚ) : ⌊x⌋ ≤ rne x := by
  unfold rne
  split_ifs <;> omega

theorem rne_le_floor_add_one (x : ℚ) : rne x ≤ ⌊x⌋ + 1 := by
  unfold rne
  split_ifs <;> omega

theorem rne_mono {x y : ℚ} (h : x ≤ y) : rne x ≤ rne y := by
  rcases lt_or_ge ⌊x⌋ ⌊y⌋ with hf | hf
  · calc rne x ≤ ⌊x⌋ + 1 := rne_le_floor_add_one x
      _ ≤ ⌊y⌋ := hf
      _ ≤ rne y := floor_le_rne y
  · have hfe : ⌊x⌋ = ⌊y⌋ := le_antisymm (Int.floor_mono h) hf
    unfold rne
    rw [hfe]
    have hxy : x - ⌊y⌋ ≤ y - ⌊y⌋ := by linarith
    split_ifs <;> first | omega | linarith

theorem log2_unique {q : ℚ} {k : ℤ} (h0 : 0 < q) (h1 : (2 : ℚ) ^ k ≤ q)
    (h2 : q < (2 : ℚ) ^ (k + 1)) : Int.log 2 q = k := by
  have hk : k ≤ Int.log 2 q := by
    rw [← Int.zpow_le_iff_le_log one_lt_two h0]
    exact_mod_cast h1
  have hk2 : Int.log 2 q < k + 1 := by
    rw [← Int.lt_zpow_iff_log_lt one_lt_two h0]
    exact_mod_cast h2
  omega

theorem rnd_of_nonpos {q : ℚ} (h : q ≤ 0) : rnd q = 0 := by
  simp [rnd, h]

theorem rnd_nonneg (q : ℚ) : 0 ≤ rnd q := by
  unfold rnd
  split_ifs with h
  · exact le_refl 0
  · push_neg at h
    have hu : (0 : ℚ) < 2 ^ (Int.log 2 q - 23) := by positivity
    have hfl : (0 : ℤ) ≤ ⌊q / 2 ^ (Int.log 2 q - 23)⌋ :=
      Int.floor_nonneg.mpr (le_of_lt (div_pos h hu))
    have := floor_le_rne (q / 2 ^ (Int.log 2 q - 23))
    have hr : (0 : ℚ) ≤ (rne (q / 2 ^ (Int.log 2 q - 23)) : ℚ) := by
      exact_mod_cast le_trans hfl this
    exact mul_nonneg hr (le_of_lt hu)

theorem zpow_split_23 (E : ℤ) : (2 : ℚ) ^ E = 8388608 * 2 ^ (E - 23) := by
  rw [show E = 23 + (E - 23) by ring, zpow_add₀ (two_ne_zero : (2:ℚ) ≠ 0)]
  norm_num

theorem zpow_split_24 (E : ℤ) : (2 : ℚ) ^ (E + 1) = 16777216 * 2 ^ (E - 23) := by
  rw [show E + 1 = 24 + (E - 23) by ring, zpow_add₀ (two_ne_zero : (2:ℚ) ≠ 0)]
  norm_num

theorem rnd_pos_bounds {q : ℚ} (h0 : 0 < q) :
    (2 : ℚ) ^ Int.log 2 q ≤ rnd q ∧ rnd q ≤ (2 : ℚ) ^ (Int.log 2 q + 1) := by
  set E := Int.log 2 q with hE
  have hu : (0 : ℚ) < 2 ^ (E - 23) := by positivity
  have hql : (2 : ℚ) ^ E ≤ q := by
    have := Int.zpow_log_le_self one_lt_two h0
    rw [hE]; exact_mod_cast this
  have hqu : q < (2 : ℚ) ^ (E + 1) := by
    have := Int.lt_zpow_succ_log_self one_lt_two q
    rw [hE]; exact_mod_cast this
  have hlo : (8388608 : ℚ) ≤ q / 2 ^ (E - 23) := by
    rw [le_div_iff hu]
    calc (8388608 : ℚ) * 2 ^ (E - 23) = 2 ^ E := (zpow_split_23 E).symm
      _ ≤ q := hql
  have hhi : q / 2 ^ (E - 23) < (16777216 : ℚ) := by
    rw [div_lt_iff hu]
    calc q < 2 ^ (E + 1) := hqu
      _ = 16777216 * 2 ^ (E - 23) := zpow_split_24 E
  have hfl : (8388608 : ℤ) ≤ ⌊q / 2 ^ (E - 23)⌋ := Int.le_floor.mpr (by exact_mod_cast hlo)
  have hfu : ⌊q / 2 ^ (E - 23)⌋ < (16777216 : ℤ) :=
    Int.floor_lt.mpr (by exact_mod_cast hhi)
  have hrl : (8388608 : ℤ) ≤ rne (q / 2 ^ (E - 23)) :=
    le_trans hfl (floor_le_rne _)
  have hru : rne (q / 2 ^ (E - 23)) ≤ (16777216 : ℤ) := by
    have := rne_le_floor_add_one (q / 2 ^ (E - 23))
    omega
  unfold rnd
  rw [if_neg (not_le.mpr h0), ← hE]
  constructor
  · rw [zpow_split_23 E]
    have : (8388608 : ℚ) ≤ (rne (q / 2 ^ (E - 23)) : ℚ) := by exact_mod_cast hrl
    exact mul_le_mul_of_nonneg_right this (le_of_lt hu)
  · rw [zpow_split_24 E]
    have : (rne (q / 2 ^ (E - 23)) : ℚ) ≤ (16777216 : ℚ) := by exact_mod_cast hru
    exact mul_le_mul_of_nonneg_right this (le_of_lt hu)

theorem rnd_mono {x y : ℚ} (hx : 0 ≤ x) (h : x ≤ y) : rnd x ≤ rnd y := by
  rcases eq_or_lt_of_le hx with hx0 | hx0
  · rw [← hx0, rnd_of_nonpos (le_refl 0)]
    exact rnd_nonneg y
  · have hy0 : 0 < y := lt_of_lt_of_le hx0 h
    have hElog : Int.log 2 x ≤ Int.log 2 y := Int.log_mono_right hx0 h
    rcases eq_or_lt_of_le hElog with hEe | hEl
    · unfold rnd
      rw [if_neg (not_le.mpr hx0), if_neg (not_le.mpr hy0), ← hEe]
      have hu : (0 : ℚ) < 2 ^ (Int.log 2 x - 23) := by positivity
      have hdiv : x / 2 ^ (Int.log 2 x - 23) ≤ y / 2 ^ (Int.log 2 x - 23) := by
        gcongr
      have hr : rne (x / 2 ^ (Int.log 2 x - 23)) ≤ rne (y / 2 ^ (Int.log 2 x - 23)) :=
        rne_mono hdiv
      have hrq : (rne (x / 2 ^ (Int.log 2 x - 23)) : ℚ) ≤
          (rne (y / 2 ^ (Int.log 2 x - 23)) : ℚ) := by exact_mod_cast hr
      exact mul_le_mul_of_nonneg_right hrq (le_of_lt hu)
    · have h1 : rnd x ≤ (2 : ℚ) ^ (Int.log 2 x + 1) := (rnd_pos_bounds hx0).2
      have h2 : (2 : ℚ) ^ Int.log 2 y ≤ rnd y := (rnd_pos_bounds hy0).1
      have h3 : (2 : ℚ) ^ (Int.log 2 x + 1) ≤ (2 : ℚ) ^ Int.log 2 y := by
        apply zpow_le_zpow_right₀ one_le_two
        omega
      linarith

theorem rnd_dyadic {m : ℕ} (e : ℤ) (h1 : 2 ^ 23 ≤ m) (h2 : m < 2 ^ 24) :
    rnd ((m : ℚ) * 2 ^ e) = (m : ℚ) * 2 ^ e := by
  have hm0 : (0 : ℚ) < m := by
    have : 0 < m := lt_of_lt_of_le (by norm_num) h1
    exact_mod_cast this
  have hu : (0 : ℚ) < (2 : ℚ) ^ e := by positivity
  have h0 : 0 < (m : ℚ) * 2 ^ e := mul_pos hm0 hu
  have hml : (8388608 : ℚ) ≤ (m : ℚ) := by exact_mod_cast h1
  have hmu : (m : ℚ) < 16777216 := by exact_mod_cast h2
  have hE : Int.log 2 ((m : ℚ) * 2 ^ e) = 23 + e := by
    apply log2_unique h0
    · rw [show (23 : ℤ) + e = 23 + e from rfl, zpow_add₀ (two_ne_zero : (2:ℚ) ≠ 0)]
      have : (2 : ℚ) ^ (23 : ℤ) = 8388608 := by norm_num
      rw [this]
      exact mul_le_mul_of_nonneg_right hml (le_of_lt hu)
    · rw [show (23 : ℤ) + e + 1 = 24 + e by ring, zpow_add₀ (two_ne_zero : (2:ℚ) ≠ 0)]
      have : (2 : ℚ) ^ (24 : ℤ) = 16777216 := by norm_num
      rw [this]
      exact mul_lt_mul_of_pos_right hmu hu
  unfold rnd
  rw [if_neg (not_le.mpr h0), hE, show (23 : ℤ) + e - 23 = e by ring]
  have hx : (m : ℚ) * 2 ^ e / 2 ^ e = ((m : ℤ) : ℚ) := by
    push_cast
    field_simp
  rw [hx, rne_intCast]
  push_cast
  ring

theorem rnd_two_mul {q : ℚ} (h0 : 0 < q) : rnd (2 * q) = 2 * rnd q := by
  have h20 : 0 < 2 * q := by linarith
  have hql : (2 : ℚ) ^ Int.log 2 q ≤ q := by
    have := Int.zpow_log_le_self one_lt_two h0
    exact_mod_cast this
  have hqu : q < (2 : ℚ) ^ (Int.log 2 q + 1) := by
    have := Int.lt_zpow_succ_log_self one_lt_two q
    exact_mod_cast this
  have hE : Int.log 2 (2 * q) = Int.log 2 q + 1 := by
    apply log2_unique h20
    · rw [zpow_add₀ (two_ne_zero : (2:ℚ) ≠ 0), zpow_one, mul_comm]
      linarith
    · rw [show Int.log 2 q + 1 + 1 = (Int.log 2 q + 1) + 1 from rfl,
        zpow_add₀ (two_ne_zero : (2:ℚ) ≠ 0) _ 1, zpow_one]
      linarith
  unfold rnd
  rw [if_neg (not_le.mpr h20), if_neg (not_le.mpr h0), hE,
    show Int.log 2 q + 1 - 23 = (Int.log 2 q - 23) + 1 by ring,
    zpow_add₀ (two_ne_zero : (2:ℚ) ≠ 0) _ 1, zpow_one]
  have hu : (2 : ℚ) ^ (Int.log 2 q - 23) ≠ 0 := by positivity
  have harg : 2 * q / (2 ^ (Int.log 2 q - 23) * 2) = q / 2 ^ (Int.log 2 q - 23) := by
    field_simp
    ring
  rw [harg]
  ring

theorem rneDiv_eq_rne (a b : ℕ) (hb : 0 < b) :
    (rneDiv a b : ℤ) = rne ((a : ℚ) / b) := by
  have hbq : (0 : ℚ) < (b : ℚ) := by exact_mod_cast hb
  have hmod : a % b < b := Nat.mod_lt _ hb
  have hdm : b * (a / b) + a % b = a := Nat.div_add_mod a b
  have hcast : ((b : ℚ)) * ((a / b : ℕ) : ℚ) + ((a % b : ℕ) : ℚ) = (a : ℚ) := by
    exact_mod_cast congrArg (fun n : ℕ => (n : ℚ)) hdm
  have hfr : (a : ℚ) / b - ((a / b : ℕ) : ℚ) = ((a % b : ℕ) : ℚ) / b := by
    field_simp
    linarith
  have hnn : (0 : ℚ) ≤ ((a % b : ℕ) : ℚ) / b :=
    div_nonneg (by positivity) (le_of_lt hbq)
  have hlt : ((a % b : ℕ) : ℚ) / b < 1 := by
    rw [div_lt_one hbq]
    exact_mod_cast hmod
  have hfloor : ⌊(a : ℚ) / b⌋ = ((a / b : ℕ) : ℤ) := by
    rw [Int.floor_eq_iff]
    refine ⟨?_, ?_⟩
    · rw [Int.cast_natCast]
      linarith [hfr]
    · rw [Int.cast_natCast]
      linarith [hfr]
  have e1 : (a : ℚ) / b - ((a / b : ℕ) : ℚ) < 1 / 2 ↔ 2 * (a % b) < b := by
    rw [hfr, div_lt_div_iff hbq (by norm_num : (0:ℚ) < 2), one_mul]
    constructor
    · intro h
      have h2 : ((2 * (a % b) : ℕ) : ℚ) < (b : ℚ) := by push_cast; linarith
      exact_mod_cast h2
    · intro h
      have h2 : ((2 * (a % b) : ℕ) : ℚ) < (b : ℚ) := by exact_mod_cast h
      push_cast at h2
      linarith
  have e2 : 1 / 2 < (a : ℚ) / b - ((a / b : ℕ) : ℚ) ↔ b < 2 * (a % b) := by
    rw [hfr, div_lt_div_iff (by norm_num : (0:ℚ) < 2) hbq, one_mul]
    constructor
    · intro h
      have h2 : (b : ℚ) < ((2 * (a % b) : ℕ) : ℚ) := by push_cast; linarith
      exact_mod_cast h2
    · intro h
      have h2 : (b : ℚ) < ((2 * (a % b) : ℕ) : ℚ) := by exact_mod_cast h
      push_cast at h2
      linarith
  have e3 : (((a / b : ℕ) : ℤ) % 2 = 0) ↔ ((a / b) % 2 = 0) := by omega
  unfold rne rneDiv
  simp only [hfloor, Int.cast_natCast, e1, e2, e3]
  split_ifs <;> push_cast <;> ring

theorem rneDiv_bounds (a b : ℕ) : a / b ≤ rneDiv a b ∧ rneDiv a b ≤ a / b + 1 := by
  unfold rneDiv
  dsimp only
  split_ifs <;> omega

theorem bitsF_zero_arg (f : ℕ) : bitsF f 0 = 0 := by
  cases f <;> rfl

theorem bitsF_spec : ∀ f n, 0 < n → n < 2 ^ f →
    2 ^ (bitsF f n - 1) ≤ n ∧ n < 2 ^ bitsF f n ∧ 1 ≤ bitsF f n := by
  intro f
  induction f with
  | zero => intro n h1 h2; omega
  | succ f ih =>
    intro n h1 h2
    simp only [bitsF, if_neg (Nat.pos_iff_ne_zero.mp h1)]
    rcases Nat.lt_or_ge n 2 with hn | hn
    · have hone : n = 1 := by omega
      subst hone
      simp [bitsF_zero_arg]
    · have hdpos : 0 < n / 2 := Nat.div_pos hn (by norm_num)
      have hdlt : n / 2 < 2 ^ f := by
        rw [Nat.div_lt_iff_lt_mul (by norm_num : 0 < 2)]
        calc n < 2 ^ (f + 1) := h2
          _ = 2 ^ f * 2 := by rw [pow_succ]
      obtain ⟨ihl, ihu, ihp⟩ := ih (n / 2) hdpos hdlt
      have hKpow : 2 ^ bitsF f (n / 2) = 2 ^ (bitsF f (n / 2) - 1) * 2 := by
        rw [← pow_succ]
        congr 1
        omega
      have hKpow2 : 2 ^ (bitsF f (n / 2) + 1) = 2 ^ bitsF f (n / 2) * 2 := by
        rw [pow_succ]
      refine ⟨?_, ?_, by omega⟩
      · have h2d : 2 * (n / 2) ≤ n := by omega
        calc 2 ^ (bitsF f (n / 2) + 1 - 1) = 2 ^ bitsF f (n / 2) := by congr 1 <;> omega
          _ = 2 ^ (bitsF f (n / 2) - 1) * 2 := hKpow
          _ ≤ (n / 2) * 2 := by exact Nat.mul_le_mul_right 2 ihl
          _ ≤ n := by omega
      · have h2d : n < 2 * (n / 2) + 2 := by omega
        calc n < 2 * (n / 2) + 2 := h2d
          _ ≤ 2 * (2 ^ bitsF f (n / 2) - 1) + 2 := by
              have : n / 2 ≤ 2 ^ bitsF f (n / 2) - 1 := by omega
              omega
          _ ≤ 2 ^ (bitsF f (n / 2) + 1) := by
              rw [hKpow2]
              have : 1 ≤ 2 ^ bitsF f (n / 2) := Nat.one_le_two_pow
              omega

theorem q_pow_natCast (k : ℕ) : (2 : ℚ) ^ ((k : ℕ) : ℤ) = ((2 ^ k : ℕ) : ℚ) := by
  push_cast
  rw [zpow_natCast]

theorem toF32_spec (n : ℕ) (hn : n < 2 ^ 256) :
    (toF32 n).canonical ∧ (toF32 n).val = rnd n := by
  rcases Nat.eq_zero_or_pos n with h0 | hpos
  · subst h0
    refine ⟨Or.inl rfl, ?_⟩
    simp [toF32, F32.val, rnd_of_nonpos]
  obtain ⟨hbl, hbu, hbp⟩ := bitsF_spec 256 n hpos hn
  have hbits : bits n = bitsF 256 n := rfl
  rw [← hbits] at hbl hbu hbp
  by_cases hs : bits n ≤ 24
  · have hpe : 2 ^ (bits n - 1) * 2 ^ (24 - bits n) = 2 ^ 23 := by
      rw [← pow_add]
      congr 1
      omega
    have hpe2 : 2 ^ bits n * 2 ^ (24 - bits n) = 2 ^ 24 := by
      rw [← pow_add]
      congr 1
      omega
    have hcanl : 2 ^ 23 ≤ n * 2 ^ (24 - bits n) := by
      rw [← hpe]
      exact Nat.mul_le_mul_right _ hbl
    have hcanu : n * 2 ^ (24 - bits n) < 2 ^ 24 := by
      rw [← hpe2]
      exact mul_lt_mul_of_pos_right hbu (pow_pos (by norm_num) _)
    have htf : toF32 n = ⟨n * 2 ^ (24 - bits n), (bits n : ℤ) - 24⟩ := by
      unfold toF32
      rw [if_neg (Nat.pos_iff_ne_zero.mp hpos)]
      simp only [← hbits]
      rw [if_pos hs]
    have hval : ((n * 2 ^ (24 - bits n) : ℕ) : ℚ) * (2 : ℚ) ^ ((bits n : ℤ) - 24) = (n : ℚ) := by
      push_cast
      rw [mul_assoc, ← zpow_natCast (2:ℚ) (24 - bits n), ← zpow_add₀ (two_ne_zero : (2:ℚ) ≠ 0)]
      have : ((24 - bits n : ℕ) : ℤ) + ((bits n : ℤ) - 24) = 0 := by omega
      rw [this, zpow_zero, mul_one]
    rw [htf]
    refine ⟨Or.inr ⟨hcanl, hcanu⟩, ?_⟩
    show ((n * 2 ^ (24 - bits n) : ℕ) : ℚ) * (2 : ℚ) ^ ((bits n : ℤ) - 24) = rnd (n : ℚ)
    rw [← hval, rnd_dyadic ((bits n : ℤ) - 24) hcanl hcanu]
  · push_neg at hs
    have hshpos : 0 < bits n - 24 := by omega
    have hq1 : 2 ^ 23 ≤ n / 2 ^ (bits n - 24) := by
      rw [Nat.le_div_iff_mul_le (Nat.pos_pow_of_pos _ (by norm_num : 0 < 2))]
      calc 2 ^ 23 * 2 ^ (bits n - 24) = 2 ^ (bits n - 1) := by
            rw [← pow_add]; congr 1; omega
        _ ≤ n := hbl
    have hq2 : n / 2 ^ (bits n - 24) < 2 ^ 24 := by
      rw [Nat.div_lt_iff_lt_mul (Nat.pos_pow_of_pos _ (by norm_num : 0 < 2))]
      calc n < 2 ^ bits n := hbu
        _ = 2 ^ 24 * 2 ^ (bits n - 24) := by rw [← pow_add]; congr 1; omega
    obtain ⟨hm1, hm2⟩ := rneDiv_bounds n (2 ^ (bits n - 24))
    have hE : Int.log 2 (n : ℚ) = (bits n : ℤ) - 1 := by
      apply log2_unique (by exact_mod_cast hpos)
      · calc (2:ℚ) ^ ((bits n : ℤ) - 1) = ((2 ^ (bits n - 1) : ℕ) : ℚ) := by
              rw [show (bits n : ℤ) - 1 = ((bits n - 1 : ℕ) : ℤ) by omega, q_pow_natCast]
          _ ≤ (n : ℚ) := by exact_mod_cast hbl
      · calc (n : ℚ) < ((2 ^ bits n : ℕ) : ℚ) := by exact_mod_cast hbu
          _ = (2:ℚ) ^ ((bits n : ℤ) - 1 + 1) := by
              rw [show (bits n : ℤ) - 1 + 1 = ((bits n : ℕ) : ℤ) by omega, q_pow_natCast]
    have hrnd : rnd (n : ℚ) =
        ((rneDiv n (2 ^ (bits n - 24)) : ℕ) : ℚ) * (2:ℚ) ^ (((bits n - 24 : ℕ)) : ℤ) := by
      unfold rnd
      rw [if_neg (not_le.mpr (by exact_mod_cast hpos)), hE,
        show (bits n : ℤ) - 1 - 23 = ((bits n - 24 : ℕ) : ℤ) by omega]
      congr 1
      rw [q_pow_natCast, ← rneDiv_eq_rne n (2 ^ (bits n - 24))
        (Nat.pos_pow_of_pos _ (by norm_num : 0 < 2))]
      push_cast
      ring
    have htf0 : toF32 n =
        if rneDiv n (2 ^ (bits n - 24)) = 2 ^ 24 then (⟨2 ^ 23, (bits n : ℤ) - 23⟩ : F32)
        else ⟨rneDiv n (2 ^ (bits n - 24)), (bits n : ℤ) - 24⟩ := by
      unfold toF32
      rw [if_neg (Nat.pos_iff_ne_zero.mp hpos)]
      simp only [← hbits]
      rw [if_neg (not_le.mpr hs)]
    by_cases hcase : rneDiv n (2 ^ (bits n - 24)) = 2 ^ 24
    · rw [htf0, if_pos hcase]
      refine ⟨Or.inr ⟨le_refl _, by norm_num⟩, ?_⟩
      show ((2 ^ 23 : ℕ) : ℚ) * (2:ℚ) ^ ((bits n : ℤ) - 23) = rnd (n : ℚ)
      rw [hrnd, hcase,
        show (bits n : ℤ) - 23 = ((bits n - 24 : ℕ) : ℤ) + 1 by omega,
        zpow_add₀ (two_ne_zero : (2:ℚ) ≠ 0), zpow_one]
      push_cast
      ring
    · rw [htf0, if_neg hcase]
      refine ⟨Or.inr ⟨?_, ?_⟩, ?_⟩
      · show 2 ^ 23 ≤ rneDiv n (2 ^ (bits n - 24))
        omega
      · show rneDiv n (2 ^ (bits n - 24)) < 2 ^ 24
        omega
      show ((rneDiv n (2 ^ (bits n - 24)) : ℕ) : ℚ) * (2:ℚ) ^ ((bits n : ℤ) - 24) = rnd (n : ℚ)
      rw [hrnd, show (bits n : ℤ) - 24 = ((bits n - 24 : ℕ) : ℤ) by omega]

theorem rnd_formula {q : ℚ} (h0 : 0 < q) :
    rnd q = (rne (q / 2 ^ (Int.log 2 q - 23)) : ℚ) * 2 ^ (Int.log 2 q - 23) := by
  unfold rnd
  rw [if_neg (not_le.mpr h0)]

/-- Rounding a natural `p` in the binade `[2^k, 2^(k+1))`, scaled by `2^E`,
is `rneDiv p 2^(k-23)` with the bounds of a (possibly just-overflowed)
significand. -/
theorem dyadic_round_spec (p : ℕ) (E : ℤ) (k : ℕ) (hk : 23 ≤ k)
    (h1 : 2 ^ k ≤ p) (h2 : p < 2 ^ (k + 1)) :
    rnd ((p : ℚ) * 2 ^ E) =
      ((rneDiv p (2 ^ (k - 23)) : ℕ) : ℚ) * 2 ^ (E + (k : ℤ) - 23) ∧
    2 ^ 23 ≤ rneDiv p (2 ^ (k - 23)) ∧ rneDiv p (2 ^ (k - 23)) ≤ 2 ^ 24 := by
  have hppos : 0 < p := lt_of_lt_of_le (Nat.pos_pow_of_pos _ (by norm_num)) h1
  have hu : (0 : ℚ) < (2 : ℚ) ^ E := by positivity
  have h0 : 0 < (p : ℚ) * 2 ^ E := by
    apply mul_pos _ hu
    exact_mod_cast hppos
  have hlog : Int.log 2 ((p : ℚ) * 2 ^ E) = (k : ℤ) + E := by
    apply log2_unique h0
    · calc (2 : ℚ) ^ ((k : ℤ) + E) = ((2 ^ k : ℕ) : ℚ) * 2 ^ E := by
            rw [zpow_add₀ (two_ne_zero : (2:ℚ) ≠ 0), q_pow_natCast]
        _ ≤ (p : ℚ) * 2 ^ E := by
            apply mul_le_mul_of_nonneg_right _ (le_of_lt hu)
            exact_mod_cast h1
    · calc (p : ℚ) * 2 ^ E < ((2 ^ (k + 1) : ℕ) : ℚ) * 2 ^ E := by
            apply mul_lt_mul_of_pos_right _ hu
            exact_mod_cast h2
        _ = (2 : ℚ) ^ ((k : ℤ) + E + 1) := by
            rw [show (k : ℤ) + E + 1 = ((k + 1 : ℕ) : ℤ) + E by push_cast; ring,
              zpow_add₀ (two_ne_zero : (2:ℚ) ≠ 0), q_pow_natCast]
  have hshift : (0 : ℕ) < 2 ^ (k - 23) := Nat.pos_pow_of_pos _ (by norm_num)
  have harg : (p : ℚ) * 2 ^ E / 2 ^ ((k : ℤ) + E - 23) =
      (p : ℚ) / ((2 ^ (k - 23) : ℕ) : ℚ) := by
    rw [mul_div_assoc, ← zpow_sub₀ (two_ne_zero : (2:ℚ) ≠ 0),
      show E - ((k : ℤ) + E - 23) = -(((k - 23 : ℕ)) : ℤ) by omega,
      zpow_neg, q_pow_natCast, div_eq_mul_inv]
  have hq1 : 2 ^ 23 ≤ p / 2 ^ (k - 23) := by
    rw [Nat.le_div_iff_mul_le hshift]
    calc 2 ^ 23 * 2 ^ (k - 23) = 2 ^ k := by rw [← pow_add]; congr 1; omega
      _ ≤ p := h1
  have hq2 : p / 2 ^ (k - 23) < 2 ^ 24 := by
    rw [Nat.div_lt_iff_lt_mul hshift]
    calc p < 2 ^ (k + 1) := h2
      _ = 2 ^ 24 * 2 ^ (k - 23) := by rw [← pow_add]; congr 1; omega
  obtain ⟨hm1, hm2⟩ := rneDiv_bounds p (2 ^ (k - 23))
  refine ⟨?_, by omega, by omega⟩
  rw [rnd_formula h0, hlog, harg, ← rneDiv_eq_rne p (2 ^ (k - 23)) hshift]
  push_cast
  ring

theorem fmul_spec (a b : F32) (ha : a.canonical) (hb : b.canonical) :
    (fmul a b).canonical ∧ (fmul a b).val = rnd (a.val * b.val) := by
  rcases ha with ha0 | ⟨hal, hau⟩
  · have hz : fmul a b = ⟨0, 0⟩ := by unfold fmul; rw [if_pos (Or.inl ha0)]
    rw [hz]
    refine ⟨Or.inl rfl, ?_⟩
    have hva : a.val = 0 := by unfold F32.val; rw [ha0]; push_cast; ring
    have hprod : a.val * b.val = 0 := by rw [hva, zero_mul]
    rw [hprod, rnd_of_nonpos (le_refl 0)]
    simp [F32.val]
  rcases hb with hb0 | ⟨hbl, hbu⟩
  · have hz : fmul a b = ⟨0, 0⟩ := by unfold fmul; rw [if_pos (Or.inr hb0)]
    rw [hz]
    refine ⟨Or.inl rfl, ?_⟩
    have hvb : b.val = 0 := by unfold F32.val; rw [hb0]; push_cast; ring
    have hprod : a.val * b.val = 0 := by rw [hvb, mul_zero]
    rw [hprod, rnd_of_nonpos (le_refl 0)]
    simp [F32.val]
  have hma : a.m ≠ 0 := by omega
  have hmb : b.m ≠ 0 := by omega
  have hcond : ¬(a.m = 0 ∨ b.m = 0) := by
    push_neg
    exact ⟨hma, hmb⟩
  have hvab : a.val * b.val = ((a.m * b.m : ℕ) : ℚ) * 2 ^ (a.e + b.e) := by
    unfold F32.val
    push_cast
    rw [zpow_add₀ (two_ne_zero : (2:ℚ) ≠ 0)]
    ring
  have hp1 : 2 ^ 46 ≤ a.m * b.m := by
    calc (2 : ℕ) ^ 46 = 2 ^ 23 * 2 ^ 23 := by norm_num
      _ ≤ a.m * b.m := Nat.mul_le_mul hal hbl
  have hp2 : a.m * b.m < 2 ^ 48 := by
    calc a.m * b.m < 2 ^ 24 * 2 ^ 24 :=
          mul_lt_mul'' hau hbu (Nat.zero_le _) (Nat.zero_le _)
      _ = 2 ^ 48 := by norm_num
  rw [hvab]
  by_cases hplt : a.m * b.m < 2 ^ 47
  · obtain ⟨hrnd, hlo, hhi⟩ := dyadic_round_spec (a.m * b.m) (a.e + b.e) 46
      (by norm_num) hp1 (by norm_num at hplt ⊢; omega)
    simp only [show (46 : ℕ) - 23 = 23 from rfl] at hrnd hlo hhi
    by_cases hcase : rneDiv (a.m * b.m) (2 ^ 23) = 2 ^ 24
    · have hfab : fmul a b = ⟨2 ^ 23, a.e + b.e + 24⟩ := by
        unfold fmul
        rw [if_neg hcond]
        dsimp only
        rw [if_pos hplt, if_pos hcase]
      rw [hfab, hrnd, hcase]
      refine ⟨Or.inr ⟨le_refl _, by norm_num⟩, ?_⟩
      show ((2 ^ 23 : ℕ) : ℚ) * 2 ^ (a.e + b.e + 24) = _
      rw [show a.e + b.e + 24 = a.e + b.e + 46 - 23 + 1 by ring,
        zpow_add₀ (two_ne_zero : (2:ℚ) ≠ 0) _ 1, zpow_one]
      push_cast
      ring
    · have hfab : fmul a b = ⟨rneDiv (a.m * b.m) (2 ^ 23), a.e + b.e + 23⟩ := by
        unfold fmul
        rw [if_neg hcond]
        dsimp only
        rw [if_pos hplt, if_neg hcase]
      rw [hfab, hrnd]
      refine ⟨Or.inr ⟨hlo, lt_of_le_of_ne hhi hcase⟩, ?_⟩
      show ((rneDiv (a.m * b.m) (2 ^ 23) : ℕ) : ℚ) * 2 ^ (a.e + b.e + 23) = _
      push_cast
      ring
  · obtain ⟨hrnd, hlo, hhi⟩ := dyadic_round_spec (a.m * b.m) (a.e + b.e) 47
      (by norm_num) (by omega) (by norm_num at hp2 ⊢; omega)
    simp only [show (47 : ℕ) - 23 = 24 from rfl] at hrnd hlo hhi
    by_cases hcase : rneDiv (a.m * b.m) (2 ^ 24) = 2 ^ 24
    · have hfab : fmul a b = ⟨2 ^ 23, a.e + b.e + 25⟩ := by
        unfold fmul
        rw [if_neg hcond]
        dsimp only
        rw [if_neg hplt, if_pos hcase]
      rw [hfab, hrnd, hcase]
      refine ⟨Or.inr ⟨le_refl _, by norm_num⟩, ?_⟩
      show ((2 ^ 23 : ℕ) : ℚ) * 2 ^ (a.e + b.e + 25) = _
      rw [show a.e + b.e + 25 = a.e + b.e + 47 - 23 + 1 by ring,
        zpow_add₀ (two_ne_zero : (2:ℚ) ≠ 0) _ 1, zpow_one]
      push_cast
      ring
    · have hfab : fmul a b = ⟨rneDiv (a.m * b.m) (2 ^ 24), a.e + b.e + 24⟩ := by
        unfold fmul
        rw [if_neg hcond]
        dsimp only
        rw [if_neg hplt, if_neg hcase]
      rw [hfab, hrnd]
      refine ⟨Or.inr ⟨hlo, lt_of_le_of_ne hhi hcase⟩, ?_⟩
      show ((rneDiv (a.m * b.m) (2 ^ 24) : ℕ) : ℚ) * 2 ^ (a.e + b.e + 24) = _
      push_cast
      ring

theorem fdiv_spec (a b : F32) (ha : a.canonical) (hb : b.canonical) (hbm : b.m ≠ 0) :
    (fdiv a b).canonical ∧ (fdiv a b).val = rnd (a.val / b.val) := by
  rcases ha with ha0 | ⟨hal, hau⟩
  · have hz : fdiv a b = ⟨0, 0⟩ := by unfold fdiv; rw [if_pos ha0]
    rw [hz]
    refine ⟨Or.inl rfl, ?_⟩
    have hva : a.val = 0 := by unfold F32.val; rw [ha0]; push_cast; ring
    have hquot : a.val / b.val = 0 := by rw [hva, zero_div]
    rw [hquot, rnd_of_nonpos (le_refl 0)]
    simp [F32.val]
  rcases hb with hb0 | ⟨hbl, hbu⟩
  · exact absurd hb0 hbm
  have hbpos : 0 < b.m := by omega
  have hbq : (0 : ℚ) < (b.m : ℚ) := by exact_mod_cast hbpos
  have haq : (0 : ℚ) < (a.m : ℚ) := by
    have : 0 < a.m := by omega
    exact_mod_cast this
  have hma : ¬a.m = 0 := by omega
  have hvq : a.val / b.val = ((a.m : ℚ) / (b.m : ℚ)) * 2 ^ (a.e - b.e) := by
    unfold F32.val
    rw [mul_div_mul_comm, ← zpow_sub₀ (two_ne_zero : (2:ℚ) ≠ 0)]
  have h0 : 0 < a.val / b.val := by
    rw [hvq]
    positivity
  by_cases hcmp : b.m ≤ a.m
  · have hlog : Int.log 2 (a.val / b.val) = a.e - b.e := by
      apply log2_unique h0
      · rw [hvq]
        have h1r : (1 : ℚ) ≤ (a.m : ℚ) / (b.m : ℚ) :=
          (one_le_div hbq).mpr (by exact_mod_cast hcmp)
        nlinarith [zpow_pos (by norm_num : (0:ℚ) < 2) (a.e - b.e)]
      · rw [hvq, zpow_add₀ (two_ne_zero : (2:ℚ) ≠ 0), zpow_one]
        have h2r : (a.m : ℚ) / (b.m : ℚ) < 2 := by
          rw [div_lt_iff hbq]
          have : a.m < 2 * b.m := by omega
          exact_mod_cast this
        nlinarith [zpow_pos (by norm_num : (0:ℚ) < 2) (a.e - b.e)]
    have harg : a.val / b.val / 2 ^ (a.e - b.e - 23) =
        ((a.m * 2 ^ 23 : ℕ) : ℚ) / (b.m : ℚ) := by
      rw [hvq, mul_div_assoc, ← zpow_sub₀ (two_ne_zero : (2:ℚ) ≠ 0),
        show a.e - b.e - (a.e - b.e - 23) = (23 : ℤ) by ring]
      push_cast
      norm_num
      ring
    have hq1 : 2 ^ 23 ≤ a.m * 2 ^ 23 / b.m := by
      rw [Nat.le_div_iff_mul_le hbpos]
      calc 2 ^ 23 * b.m ≤ 2 ^ 23 * a.m := Nat.mul_le_mul_left _ hcmp
        _ = a.m * 2 ^ 23 := Nat.mul_comm _ _
    have hq2 : a.m * 2 ^ 23 / b.m < 2 ^ 24 := by
      rw [Nat.div_lt_iff_lt_mul hbpos]
      have h2bm : a.m < 2 * b.m := by omega
      calc a.m * 2 ^ 23 < (2 * b.m) * 2 ^ 23 := by
            exact Nat.mul_lt_mul_of_lt_of_le h2bm (le_refl _) (by norm_num)
        _ = 2 ^ 24 * b.m := by ring
    obtain ⟨hm1, hm2⟩ := rneDiv_bounds (a.m * 2 ^ 23) b.m
    have hrnd : rnd (a.val / b.val) =
        ((rneDiv (a.m * 2 ^ 23) b.m : ℕ) : ℚ) * 2 ^ (a.e - b.e - 23) := by
      rw [rnd_formula h0, hlog, harg, ← rneDiv_eq_rne (a.m * 2 ^ 23) b.m hbpos]
      push_cast
      ring
    by_cases hcase : rneDiv (a.m * 2 ^ 23) b.m = 2 ^ 24
    · have hfab : fdiv a b = ⟨2 ^ 23, a.e - b.e - 22⟩ := by
        unfold fdiv
        rw [if_neg hma, if_pos hcmp]
        dsimp only
        rw [if_pos hcase]
      rw [hfab, hrnd, hcase]
      refine ⟨Or.inr ⟨le_refl _, by norm_num⟩, ?_⟩
      show ((2 ^ 23 : ℕ) : ℚ) * 2 ^ (a.e - b.e - 22) = _
      rw [show a.e - b.e - 22 = a.e - b.e - 23 + 1 by ring,
        zpow_add₀ (two_ne_zero : (2:ℚ) ≠ 0) _ 1, zpow_one]
      push_cast
      ring
    · have hfab : fdiv a b = ⟨rneDiv (a.m * 2 ^ 23) b.m, a.e - b.e - 23⟩ := by
        unfold fdiv
        rw [if_neg hma, if_pos hcmp]
        dsimp only
        rw [if_neg hcase]
      rw [hfab, hrnd]
      refine ⟨Or.inr ⟨?_, ?_⟩, rfl⟩
      · show 2 ^ 23 ≤ rneDiv (a.m * 2 ^ 23) b.m
        omega
      · show rneDiv (a.m * 2 ^ 23) b.m < 2 ^ 24
        omega
  · push_neg at hcmp
    have h2am : b.m ≤ 2 * a.m := by omega
    have hlog : Int.log 2 (a.val / b.val) = a.e - b.e - 1 := by
      apply log2_unique h0
      · rw [hvq, show a.e - b.e - 1 = (a.e - b.e) + (-1) by ring,
          zpow_add₀ (two_ne_zero : (2:ℚ) ≠ 0)]
        have h1r : (2 : ℚ)⁻¹ ≤ (a.m : ℚ) / (b.m : ℚ) := by
          rw [le_div_iff hbq]
          have hc : (b.m : ℚ) ≤ 2 * (a.m : ℚ) := by exact_mod_cast h2am
          linarith
        have hz : (2 : ℚ) ^ (-1 : ℤ) = 2⁻¹ := by norm_num
        rw [hz]
        nlinarith [zpow_pos (by norm_num : (0:ℚ) < 2) (a.e - b.e)]
      · rw [hvq, show a.e - b.e - 1 + 1 = a.e - b.e by ring]
        have h2r : (a.m : ℚ) / (b.m : ℚ) < 1 := by
          rw [div_lt_one hbq]
          exact_mod_cast hcmp
        nlinarith [zpow_pos (by norm_num : (0:ℚ) < 2) (a.e - b.e)]
    have harg : a.val / b.val / 2 ^ (a.e - b.e - 1 - 23) =
        ((a.m * 2 ^ 24 : ℕ) : ℚ) / (b.m : ℚ) := by
      rw [hvq, mul_div_assoc, ← zpow_sub₀ (two_ne_zero : (2:ℚ) ≠ 0),
        show a.e - b.e - (a.e - b.e - 1 - 23) = (24 : ℤ) by ring]
      push_cast
      norm_num
      ring
    have hq1 : 2 ^ 23 ≤ a.m * 2 ^ 24 / b.m := by
      rw [Nat.le_div_iff_mul_le hbpos]
      calc 2 ^ 23 * b.m ≤ 2 ^ 23 * (2 * a.m) := Nat.mul_le_mul_left _ h2am
        _ = a.m * 2 ^ 24 := by ring
    have hq2 : a.m * 2 ^ 24 / b.m < 2 ^ 24 := by
      rw [Nat.div_lt_iff_lt_mul hbpos]
      calc a.m * 2 ^ 24 < b.m * 2 ^ 24 := by
            exact Nat.mul_lt_mul_of_lt_of_le hcmp (le_refl _) (by norm_num)
        _ = 2 ^ 24 * b.m := Nat.mul_comm _ _
    obtain ⟨hm1, hm2⟩ := rneDiv_bounds (a.m * 2 ^ 24) b.m
    have hrnd : rnd (a.val / b.val) =
        ((rneDiv (a.m * 2 ^ 24) b.m : ℕ) : ℚ) * 2 ^ (a.e - b.e - 24) := by
      rw [rnd_formula h0, hlog, harg, ← rneDiv_eq_rne (a.m * 2 ^ 24) b.m hbpos]
      push_cast
      ring
    by_cases hcase : rneDiv (a.m * 2 ^ 24) b.m = 2 ^ 24
    · have hfab : fdiv a b = ⟨2 ^ 23, a.e - b.e - 23⟩ := by
        unfold fdiv
        rw [if_neg hma, if_neg (not_le.mpr hcmp)]
        dsimp only
        rw [if_pos hcase]
      rw [hfab, hrnd, hcase]
      refine ⟨Or.inr ⟨le_refl _, by norm_num⟩, ?_⟩
      show ((2 ^ 23 : ℕ) : ℚ) * 2 ^ (a.e - b.e - 23) = _
      rw [show a.e - b.e - 23 = a.e - b.e - 24 + 1 by ring,
        zpow_add₀ (two_ne_zero : (2:ℚ) ≠ 0) _ 1, zpow_one]
      push_cast
      ring
    · have hfab : fdiv a b = ⟨rneDiv (a.m * 2 ^ 24) b.m, a.e - b.e - 24⟩ := by
        unfold fdiv
        rw [if_neg hma, if_neg (not_le.mpr hcmp)]
        dsimp only
        rw [if_neg hcase]
      rw [hfab, hrnd]
      refine ⟨Or.inr ⟨?_, ?_⟩, rfl⟩
      · show 2 ^ 23 ≤ rneDiv (a.m * 2 ^ 24) b.m
        omega
      · show rneDiv (a.m * 2 ^ 24) b.m < 2 ^ 24
        omega

theorem F32.val_nonneg (a : F32) : 0 ≤ a.val := by
  unfold F32.val
  positivity

theorem rnd_pos {q : ℚ} (h0 : 0 < q) : 0 < rnd q :=
  lt_of_lt_of_le (by positivity) (rnd_pos_bounds h0).1

theorem f32ToU32_eq (a : F32) : f32ToU32 a = min ⌊a.val⌋₊ (2 ^ 32 - 1) := by
  unfold f32ToU32 F32.val
  dsimp only
  by_cases he : 0 ≤ a.e
  · rw [if_pos he]
    have hz : (2 : ℚ) ^ a.e = ((2 ^ a.e.toNat : ℕ) : ℚ) := by
      rw [← q_pow_natCast, Int.toNat_of_nonneg he]
    rw [hz, show (a.m : ℚ) * ((2 ^ a.e.toNat : ℕ) : ℚ) =
      ((a.m * 2 ^ a.e.toNat : ℕ) : ℚ) by push_cast; ring, Nat.floor_natCast]
  · rw [if_neg he]
    have hz : (2 : ℚ) ^ a.e = (((2 ^ (-a.e).toNat : ℕ) : ℚ))⁻¹ := by
      rw [← q_pow_natCast, Int.toNat_of_nonneg (by omega : (0:ℤ) ≤ -a.e),
        ← zpow_neg, neg_neg]
    rw [hz, ← div_eq_mul_inv, Nat.floor_div_nat, Nat.floor_natCast]

theorem f32ToU32_mono {a b : F32} (h : a.val ≤ b.val) : f32ToU32 a ≤ f32ToU32 b := by
  rw [f32ToU32_eq, f32ToU32_eq]
  exact min_le_min (Nat.floor_mono h) (le_refl _)

theorem toF32_hundred_canonical : (toF32 100).canonical ∧ (toF32 100).m ≠ 0 ∧
    (toF32 100).val = rnd 100 := by
  obtain ⟨hc, hv⟩ := toF32_spec 100 (by norm_num)
  refine ⟨hc, by decide, hv⟩

theorem rnd_hundred : rnd (100 : ℚ) = 100 := by
  have h100 : (100 : ℚ) = ((13107200 : ℕ) : ℚ) * 2 ^ (-17 : ℤ) := by
    rw [zpow_neg]
    norm_num
  rw [h100, rnd_dyadic (-17 : ℤ) (by norm_num) (by norm_num), ← h100]

theorem rnd_one : rnd (1 : ℚ) = 1 := by
  have h1 : (1 : ℚ) = ((8388608 : ℕ) : ℚ) * 2 ^ (-23 : ℤ) := by
    rw [zpow_neg]
    norm_num
  rw [h1, rnd_dyadic (-23 : ℤ) (by norm_num) (by norm_num), ← h1]

theorem rnd_half : rnd (1 / 2 : ℚ) = 1 / 2 := by
  have hh : (1 / 2 : ℚ) = ((8388608 : ℕ) : ℚ) * 2 ^ (-24 : ℤ) := by
    rw [zpow_neg]
    norm_num
  rw [hh, rnd_dyadic (-24 : ℤ) (by norm_num) (by norm_num), ← hh]

theorem rnd_fifty : rnd (50 : ℚ) = 50 := by
  have hf : (50 : ℚ) = ((13107200 : ℕ) : ℚ) * 2 ^ (-18 : ℤ) := by
    rw [zpow_neg]
    norm_num
  rw [hf, rnd_dyadic (-18 : ℤ) (by norm_num) (by norm_num), ← hf]

theorem toF32_m_ne_zero {n : ℕ} (hn : 0 < n) (h256 : n < 2 ^ 256) :
    (toF32 n).m ≠ 0 := by
  obtain ⟨hc, hv⟩ := toF32_spec n h256
  intro hm
  have hz : (toF32 n).val = 0 := by
    unfold F32.val
    rw [hm]
    push_cast
    ring
  rw [hv] at hz
  exact absurd hz (ne_of_gt (rnd_pos (by exact_mod_cast hn)))

/-- C3: for every `u32`-valued `PowerInfo` with `min_watts ≤ max_watts`,
`effective_watts_from_percentage` always lies within
`[min_watts, max_watts]` (any percentage, including 0 and far beyond 100)
and is non-decreasing in the percentage; and the milliwatt value
`set_power_limit_percentage` sends to the gateway is exactly this clamped
value converted by `w_to_mw`. -/
theorem effective_watts_clamped_monotone (p : PowerInfo) (hp : p.u32Bounds)
    (hmm : p.min_watts ≤ p.max_watts) :
    (∀ pct : ℕ, p.min_watts ≤ p.effective_watts_from_percentage pct ∧
       p.effective_watts_from_percentage pct ≤ p.max_watts) ∧
    (∀ pct pct' : ℕ, pct ≤ pct' → pct' < 2 ^ 32 →
       p.effective_watts_from_percentage pct ≤ p.effective_watts_from_percentage pct') ∧
    (∀ (env : GpuEnv) (pct : ℕ) (cs : List GCall), get_power_info env = (.ok p, cs) →
       (set_power_limit_percentage env pct).2 =
         cs ++ [.setPowerLimit (w_to_mw (p.effective_watts_from_percentage pct))]) := by
  refine ⟨?_, ?_, ?_⟩
  · intro pct
    unfold PowerInfo.effective_watts_from_percentage
    exact ⟨le_min (le_max_right _ _) hmm, min_le_right _ _⟩
  · intro pct pct' hle hlt
    have hcalc : p.calculate_watts_from_percentage pct ≤
        p.calculate_watts_from_percentage pct' := by
      unfold PowerInfo.calculate_watts_from_percentage
      apply f32ToU32_mono
      have hd256 : p.default_watts < 2 ^ 256 := lt_of_lt_of_le hp.2.1 (by norm_num)
      obtain ⟨hDc, hDv⟩ := toF32_spec p.default_watts hd256
      obtain ⟨hXc, hXv⟩ :=
        toF32_spec pct (lt_of_le_of_lt hle (lt_of_lt_of_le hlt (by norm_num)))
      obtain ⟨hX'c, hX'v⟩ := toF32_spec pct' (lt_of_lt_of_le hlt (by norm_num))
      obtain ⟨hCc, hCm, hCv⟩ := toF32_hundred_canonical
      obtain ⟨hMc, hMv⟩ := fmul_spec _ _ hDc hXc
      obtain ⟨hM'c, hM'v⟩ := fmul_spec _ _ hDc hX'c
      obtain ⟨hQc, hQv⟩ := fdiv_spec _ _ hMc hCc hCm
      obtain ⟨hQ'c, hQ'v⟩ := fdiv_spec _ _ hM'c hCc hCm
      rw [hQv, hQ'v]
      apply rnd_mono (div_nonneg (F32.val_nonneg _) (F32.val_nonneg _))
      rw [div_eq_mul_inv, div_eq_mul_inv]
      apply mul_le_mul_of_nonneg_right _ (inv_nonneg.mpr (F32.val_nonneg _))
      rw [hMv, hM'v]
      apply rnd_mono (mul_nonneg (F32.val_nonneg _) (F32.val_nonneg _))
      apply mul_le_mul_of_nonneg_left _ (F32.val_nonneg _)
      rw [hXv, hX'v]
      exact rnd_mono (by positivity) (by exact_mod_cast hle)
    unfold PowerInfo.effective_watts_from_percentage
    exact min_le_min (max_le_max hcalc (le_refl _)) (le_refl _)
  · intro env pct cs hg
    unfold set_power_limit_percentage
    rw [hg]
    cases hsp : env.setPowerLimit (w_to_mw (p.effective_watts_from_percentage pct)) <;>
      simp [hsp]

/-- C3 witness: the theorem applied to a concrete 600 W card. -/
theorem effective_watts_clamped_monotone_witness :
    let p : PowerInfo := ⟨600, 600, 400, 650⟩
    p.u32Bounds ∧ p.min_watts ≤ p.max_watts ∧
    (400 ≤ p.effective_watts_from_percentage 1000000 ∧
      p.effective_watts_from_percentage 1000000 ≤ 650) ∧
    p.effective_watts_from_percentage 50 ≤ p.effective_watts_from_percentage 104 ∧
    (set_power_limit_percentage envOk 80).2 =
      [.getPowerLimit, .getPowerDefaultLimit, .getPowerLimitConstraints] ++
        [.setPowerLimit (w_to_mw ((⟨600, 600, 400, 650⟩ : PowerInfo).effective_watts_from_percentage 80))] := by
  intro p
  have h := effective_watts_clamped_monotone p (by constructor <;> norm_num) (by norm_num)
  exact ⟨by constructor <;> norm_num, by norm_num, h.1 1000000,
    h.2.1 50 104 (by norm_num) (by norm_num),
    h.2.2 envOk 80 [.getPowerLimit, .getPowerDefaultLimit, .getPowerLimitConstraints]
      (by decide)⟩

/-- C6 counterexample: `current_percentage` is computed in 32-bit float
arithmetic, which at `limit_watts = 21`, `default_watts = 5` yields 419,
not the exact integer truncation 420. -/
theorem current_percentage_truncation_counterexample :
    (⟨21, 5, 4, 100⟩ : PowerInfo).current_percentage = 419 ∧
    (⟨21, 5, 4, 100⟩ : PowerInfo).limit_watts * 100 /
       (⟨21, 5, 4, 100⟩ : PowerInfo).default_watts = 420 ∧
    (⟨21, 5, 4, 100⟩ : PowerInfo).current_percentage ≠
      (⟨21, 5, 4, 100⟩ : PowerInfo).limit_watts * 100 /
        (⟨21, 5, 4, 100⟩ : PowerInfo).default_watts :=
  ⟨by decide, by decide, by decide⟩

/-- C6 (amended): `current_percentage` computes the percentage in 32-bit
float arithmetic (not always the exact integer truncation); it equals 100
exactly when `limit_watts = default_watts`, and equals 50 exactly when
`default_watts` is even and `limit_watts = default_watts / 2`. -/
theorem current_percentage_exact_cases (p : PowerInfo) (hp : p.u32Bounds)
    (hd : 0 < p.default_watts) :
    (p.limit_watts = p.default_watts → p.current_percentage = 100) ∧
    (2 ∣ p.default_watts → p.limit_watts = p.default_watts / 2 →
       p.current_percentage = 50) := by
  have hd256 : p.default_watts < 2 ^ 256 := lt_of_lt_of_le hp.2.1 (by norm_num)
  obtain ⟨hDc, hDv⟩ := toF32_spec p.default_watts hd256
  obtain ⟨hCc, hCm, hCv⟩ := toF32_hundred_canonical
  have hdq : (0 : ℚ) < (p.default_watts : ℚ) := by exact_mod_cast hd
  have hDpos : 0 < (toF32 p.default_watts).val := by
    rw [hDv]
    exact rnd_pos hdq
  have hDm : (toF32 p.default_watts).m ≠ 0 := toF32_m_ne_zero hd hd256
  have hCval : (toF32 100).val = 100 := by rw [hCv, rnd_hundred]
  constructor
  · intro hl
    unfold PowerInfo.current_percentage
    rw [if_neg (by omega), hl]
    obtain ⟨hQc, hQv⟩ := fdiv_spec _ _ hDc hDc hDm
    obtain ⟨hMc, hMv⟩ := fmul_spec _ _ hQc hCc
    have hQval : (fdiv (toF32 p.default_watts) (toF32 p.default_watts)).val = 1 := by
      rw [hQv, div_self (ne_of_gt hDpos), rnd_one]
    have hMval : (fmul (fdiv (toF32 p.default_watts) (toF32 p.default_watts))
        (toF32 100)).val = 100 := by
      rw [hMv, hQval, hCval, one_mul, rnd_hundred]
    rw [f32ToU32_eq, hMval, show ⌊(100 : ℚ)⌋₊ = 100 by norm_num]
    decide
  · intro hdvd hl
    obtain ⟨k, hk⟩ := hdvd
    have hkpos : 0 < k := by omega
    have hl2 : p.limit_watts = k := by omega
    have hkq : (0 : ℚ) < (k : ℚ) := by exact_mod_cast hkpos
    have hk256 : k < 2 ^ 256 := lt_of_le_of_lt (by omega) hd256
    obtain ⟨hLc, hLv⟩ := toF32_spec k hk256
    have hrndk : 0 < rnd (k : ℚ) := rnd_pos hkq
    have hDv2 : (toF32 p.default_watts).val = 2 * rnd (k : ℚ) := by
      rw [hDv, show ((p.default_watts : ℕ) : ℚ) = 2 * (k : ℚ) by
        rw [hk]; push_cast; ring, rnd_two_mul hkq]
    unfold PowerInfo.current_percentage
    rw [if_neg (by omega), hl2]
    obtain ⟨hQc, hQv⟩ := fdiv_spec _ _ hLc hDc hDm
    obtain ⟨hMc, hMv⟩ := fmul_spec _ _ hQc hCc
    have hQval : (fdiv (toF32 k) (toF32 p.default_watts)).val = 1 / 2 := by
      rw [hQv, hLv, hDv2,
        show rnd (k : ℚ) / (2 * rnd (k : ℚ)) = 1 / 2 by
          rw [div_eq_div_iff (ne_of_gt (by positivity : (0:ℚ) < 2 * rnd (k:ℚ)))
            (two_ne_zero : (2:ℚ) ≠ 0)]
          ring, rnd_half]
    have hMval : (fmul (fdiv (toF32 k) (toF32 p.default_watts)) (toF32 100)).val = 50 := by
      rw [hMv, hQval, hCval, show (1 / 2 : ℚ) * 100 = 50 by norm_num, rnd_fifty]
    rw [f32ToU32_eq, hMval, show ⌊(50 : ℚ)⌋₊ = 50 by norm_num]
    decide

/-- C6 witness: the amended theorem at a 600 W default card. -/
theorem current_percentage_exact_cases_witness :
    (⟨600, 600, 400, 650⟩ : PowerInfo).current_percentage = 100 ∧
    (⟨300, 600, 400, 650⟩ : PowerInfo).current_percentage = 50 :=
  ⟨(current_percentage_exact_cases ⟨600, 600, 400, 650⟩
      (by constructor <;> norm_num) (by norm_num)).1 rfl,
   (current_percentage_exact_cases ⟨300, 600, 400, 650⟩
      (by constructor <;> norm_num) (by norm_num)).2 (by norm_num) (by norm_num)⟩

end Nvoc

